import Mathlib

/-!
Shallow embedding of the retail-management transactional, audit-chained
write pipeline (Go sources under `internal/core` and
`internal/adapters/storage`), together with proofs of the specification
claims about it.

Modelling conventions, used throughout:

* Go `float64` money values (`BasePrice`, `CostPrice`, `TotalAmount`) are
  modelled as `Rat`.  The claims under scrutiny concern which values flow
  where (snapshots, accumulation structure), not IEEE-754 rounding.
* `time.Time` values are represented by their `RFC3339Nano` rendering: the
  code only ever feeds timestamps into `Format(time.RFC3339Nano)` before
  hashing, so a timestamp is modelled as that string.  `time.Now()` and
  `uuid.New()` are nondeterministic inputs and are passed to the embedded
  functions as explicit arguments.
* A JSON payload (`map[string]interface{}` marshalled with
  `encoding/json`, which is deterministic: object keys are sorted) is
  represented by its serialized form, a `String`.  No claim inspects the
  inside of a payload; the exact rendering of numbers inside payload
  strings is therefore abstracted by `toString`.
* SQL stores are modelled as in-memory lists; `INSERT` appends, `UPDATE`
  rewrites rows matched by the `WHERE` clause, `SELECT ... LIMIT 1` takes
  the first match.  This matches both the SQLite schema (sku `UNIQUE`,
  audit id `AUTOINCREMENT`) and the repository mocks in the Go tests.
-/

/-! ## Dynamic Go values

Property bags (`map[string]interface{}` in Go) hold strings (CSV input),
numbers (JSON input, native numerics) or booleans.  A bag is an
association list; Go map iteration order is immaterial to every claim.
-/

/-- A dynamically typed Go value as it occurs in a product property bag. -/
inductive GoValue where
  | str (s : String)
  | num (q : Rat)
  | bool (b : Bool)
deriving DecidableEq, Repr

/-- Association-list lookup, the model of a Go map read `properties[key]`. -/
def lookupProp (props : List (String × GoValue)) (k : String) : Option GoValue :=
  (props.find? (fun kv => kv.1 == k)).map (·.2)

/-! ## strconv.ParseFloat model

`parseGoFloat` models the success/failure behaviour and the (exact) value
of Go's `strconv.ParseFloat(s, 64)`: optional sign; the special strings
`inf`/`infinity` (optionally signed) and `nan` (unsigned), case
insensitive; a decimal mantissa with at most one dot and at least one
digit, followed by an optional `e`/`E` exponent; or a hexadecimal
mantissa `0x...` with a mandatory `p`/`P` exponent.  Digit-separator
underscores and out-of-range overflow errors of the Go grammar are not
modelled (no claim exercises them); the numeric value of the non-finite
special strings is abstracted as `0` since `Rat` has no infinities and no
claim depends on it. -/

/-- Split a leading run of decimal digits off a character list. -/
def takeDigits : List Char → List Char × List Char
  | [] => ([], [])
  | c :: r =>
    if c.isDigit then
      let p := takeDigits r
      (c :: p.1, p.2)
    else ([], c :: r)

/-- Is `c` a hexadecimal digit character? -/
def isHexDigitChar (c : Char) : Bool :=
  c.isDigit || ('a' ≤ c && c ≤ 'f') || ('A' ≤ c && c ≤ 'F')

/-- Split a leading run of hexadecimal digits off a character list. -/
def takeHexDigits : List Char → List Char × List Char
  | [] => ([], [])
  | c :: r =>
    if isHexDigitChar c then
      let p := takeHexDigits r
      (c :: p.1, p.2)
    else ([], c :: r)

/-- Numeric value of a list of decimal digits. -/
def natOfDigits (ds : List Char) : Nat :=
  ds.foldl (fun acc c => 10 * acc + (c.toNat - '0'.toNat)) 0

/-- Numeric value of one hexadecimal digit. -/
def hexVal (c : Char) : Nat :=
  if c.isDigit then c.toNat - '0'.toNat
  else if 'a' ≤ c ∧ c ≤ 'f' then c.toNat - 'a'.toNat + 10
  else c.toNat - 'A'.toNat + 10

/-- Numeric value of a list of hexadecimal digits. -/
def natOfHexDigits (ds : List Char) : Nat :=
  ds.foldl (fun acc c => 16 * acc + hexVal c) 0

/-- Parse the optional decimal exponent suffix (`e`/`E` part) applied to
mantissa `m`; the whole remainder must be consumed. -/
def parseDecExp (m : Rat) : List Char → Option Rat
  | [] => some m
  | c :: r =>
    if c = 'e' ∨ c = 'E' then
      let signed : Rat → List Char → Option Rat := fun mm cs =>
        let p := takeDigits cs
        if p.1 = [] ∨ p.2 ≠ [] then none
        else some (mm * (10 : Rat) ^ (natOfDigits p.1))
      match r with
      | '+' :: r2 => signed m r2
      | '-' :: r2 =>
        let p := takeDigits r2
        if p.1 = [] ∨ p.2 ≠ [] then none
        else some (m / (10 : Rat) ^ (natOfDigits p.1))
      | _ => signed m r
    else none

/-- Parse the mandatory binary exponent suffix (`p`/`P` part) of a
hexadecimal float applied to mantissa `m`. -/
def parseHexExp (m : Rat) : List Char → Option Rat
  | [] => none
  | c :: r =>
    if c = 'p' ∨ c = 'P' then
      let pos : Rat → List Char → Option Rat := fun mm cs =>
        let p := takeDigits cs
        if p.1 = [] ∨ p.2 ≠ [] then none
        else some (mm * (2 : Rat) ^ (natOfDigits p.1))
      match r with
      | '+' :: r2 => pos m r2
      | '-' :: r2 =>
        let p := takeDigits r2
        if p.1 = [] ∨ p.2 ≠ [] then none
        else some (m / (2 : Rat) ^ (natOfDigits p.1))
      | _ => pos m r
    else none

/-- Parse an unsigned decimal or hexadecimal floating-point body. -/
def parseFloatBody : List Char → Option Rat
  | '0' :: x :: rest =>
    if x = 'x' ∨ x = 'X' then
      let ip := takeHexDigits rest
      match ip.2 with
      | '.' :: r2 =>
        let fp := takeHexDigits r2
        if ip.1 = [] ∧ fp.1 = [] then none
        else
          parseHexExp ((natOfHexDigits ip.1 : Rat) +
            (natOfHexDigits fp.1 : Rat) / (16 : Rat) ^ fp.1.length) fp.2
      | r2 =>
        if ip.1 = [] then none
        else parseHexExp (natOfHexDigits ip.1 : Rat) r2
    else
      let ip := takeDigits ('0' :: x :: rest)
      match ip.2 with
      | '.' :: r2 =>
        let fp := takeDigits r2
        parseDecExp ((natOfDigits ip.1 : Rat) +
          (natOfDigits fp.1 : Rat) / (10 : Rat) ^ fp.1.length) fp.2
      | r2 => parseDecExp (natOfDigits ip.1 : Rat) r2
  | cs =>
    let ip := takeDigits cs
    match ip.2 with
    | '.' :: r2 =>
      let fp := takeDigits r2
      if ip.1 = [] ∧ fp.1 = [] then none
      else
        parseDecExp ((natOfDigits ip.1 : Rat) +
          (natOfDigits fp.1 : Rat) / (10 : Rat) ^ fp.1.length) fp.2
    | r2 =>
      if ip.1 = [] then none
      else parseDecExp (natOfDigits ip.1 : Rat) r2

/-- Model of `strconv.ParseFloat(s, 64)`: `some q` on success (with the
exact rational value for finite inputs), `none` on a parse error. -/
def parseGoFloat (s : String) : Option Rat :=
  let cs := s.data
  let lower := (cs.map Char.toLower).asString
  if lower = "inf" ∨ lower = "infinity" ∨ lower = "+inf" ∨ lower = "+infinity" ∨
     lower = "-inf" ∨ lower = "-infinity" ∨ lower = "nan" then some 0
  else
    match cs with
    | '+' :: r => parseFloatBody r
    | '-' :: r => (parseFloatBody r).map Neg.neg
    | r => parseFloatBody r

/-! ## Error model

Go errors are modelled as an inductive type.  `fmt.Errorf("...: %w", err)`
wrapping is the `wrap` constructor, so `errors.Is(err, ErrInsufficientStock)`
and `errors.Is(err, ErrInvalidProperty)` become recursive unwrapping, and
plain `errors.New` / non-wrapping `fmt.Errorf` errors are `msg` carrying
their text. -/

/-- An error value: a sentinel-backed error, a plain message, or a
wrapping of an inner error with a context string. -/
inductive Err where
  | insufficientStock (productId : String) (onHand requested : Int)
  | invalidProperty (detail : String)
  | msg (s : String)
  | wrap (context : String) (inner : Err)
deriving DecidableEq, Repr

/-- Model of `errors.Is(e, ErrInsufficientStock)`. -/
def errIsInsufficientStock : Err → Bool
  | .insufficientStock _ _ _ => true
  | .wrap _ inner => errIsInsufficientStock inner
  | _ => false

/-- Model of `errors.Is(e, ErrInvalidProperty)`. -/
def errIsInvalidProperty : Err → Bool
  | .invalidProperty _ => true
  | .wrap _ inner => errIsInvalidProperty inner
  | _ => false

/-! ## Data model (`internal/core/domain`) -/

/-- A category-declared rule for one dynamic property
(`domain.AttributeDefinition`).  The Go field `Type` is `ty` here
(`Type` is reserved in Lean). -/
structure AttributeDefinition where
  key : String
  ty : String
  required : Bool
  options : List String
  unit : String
deriving DecidableEq, Repr

/-- The schema blueprint for product properties (`domain.Category`). -/
structure Category where
  id : String
  name : String
  attributeDefinitions : List AttributeDefinition
deriving DecidableEq, Repr

/-- A product entity (`domain.Product` plus the `quantity`/`cost_price`
columns of migration 004, which the sale code reads and writes). -/
structure Product where
  id : String
  name : String
  sku : String
  categoryId : String
  basePrice : Rat
  costPrice : Rat
  quantity : Int
  properties : List (String × GoValue)
  createdAt : String
  updatedAt : String
deriving DecidableEq, Repr

/-- A completed sale (`domain.Sale`). -/
structure Sale where
  id : String
  totalAmount : Rat
  createdAt : String
deriving DecidableEq, Repr

/-- One line item of a sale (`domain.SaleItem`); `unitPrice`/`costPrice`
are the price snapshots taken at sale time. -/
structure SaleItem where
  saleId : String
  productId : String
  quantity : Int
  unitPrice : Rat
  costPrice : Rat
deriving DecidableEq, Repr

/-- A domain-level audit entry (`domain.AuditLog`): `prevHash` is a plain
string, empty for the first record. -/
structure AuditLog where
  id : Int
  action : String
  userId : String
  timestamp : String
  payload : String
  prevHash : String
  currentHash : String
deriving DecidableEq, Repr

/-- A stored `audit_logs` row (`storage.auditLogRow`): `prev_hash` is a
nullable column, `none` standing for SQL `NULL`. -/
structure AuditRow where
  id : Int
  action : String
  userId : String
  timestamp : String
  payload : String
  prevHash : Option String
  currentHash : String
deriving DecidableEq, Repr

/-! ## Property Validator (`category_service.go`) -/

/-- Model of `isNumeric`: native numerics pass, strings pass when
`strconv.ParseFloat` accepts them, everything else fails. -/
def isNumeric : GoValue → Bool
  | .num _ => true
  | .str s => (parseGoFloat s).isSome
  | .bool _ => false

/-- Model of `contains(slice, item)`. -/
def containsStr (slice : List String) (item : String) : Bool :=
  slice.contains item

/-- Check a single attribute definition against a property bag: the body
of the loop in `ValidateProperties`. -/
def checkAttr (attr : AttributeDefinition) (props : List (String × GoValue)) :
    Except Err Unit :=
  match lookupProp props attr.key with
  | none =>
    if attr.required then
      .error (.invalidProperty ("missing required property " ++ attr.key))
    else .ok ()
  | some val =>
    match attr.ty with
    | "string" =>
      match val with
      | .str _ => .ok ()
      | _ => .error (.invalidProperty ("property " ++ attr.key ++ " must be a string"))
    | "number" =>
      if isNumeric val then .ok ()
      else .error (.invalidProperty ("property " ++ attr.key ++ " must be a number"))
    | "boolean" =>
      match val with
      | .bool _ => .ok ()
      | _ => .error (.invalidProperty ("property " ++ attr.key ++ " must be a boolean"))
    | "select" =>
      match val with
      | .str s =>
        if attr.options.length > 0 ∧ ¬ containsStr attr.options s then
          .error (.invalidProperty ("property " ++ attr.key ++ " value not in allowed options"))
        else .ok ()
      | _ => .error (.invalidProperty ("property " ++ attr.key ++ " must be a string for select type"))
    | _ => .ok ()

/-- Loop of `ValidateProperties` over the attribute definitions,
reporting the first violation. -/
def validateAttrs (attrs : List AttributeDefinition)
    (props : List (String × GoValue)) : Except Err Unit :=
  match attrs with
  | [] => .ok ()
  | attr :: rest =>
    match checkAttr attr props with
    | .error e => .error e
    | .ok () => validateAttrs rest props

/-- Model of `ValidateProperties(category, properties)`; a `nil` category
pointer is `none`. -/
def validateProperties (category : Option Category)
    (props : List (String × GoValue)) : Except Err Unit :=
  match category with
  | none => .ok ()
  | some cat => validateAttrs cat.attributeDefinitions props

/-- Modelled from the spec (§4.1 type rules): what it means for one
present attribute value to be acceptable.  Used only to state the
refinement claim C8 against `validateProperties`. -/
def specTypeOk (attr : AttributeDefinition) (v : GoValue) : Prop :=
  (attr.ty = "string" → ∃ s, v = .str s) ∧
  (attr.ty = "boolean" → ∃ b, v = .bool b) ∧
  (attr.ty = "number" →
    (∃ q, v = .num q) ∨ (∃ s, v = .str s ∧ (parseGoFloat s).isSome)) ∧
  (attr.ty = "select" →
    ∃ s, v = .str s ∧ (attr.options = [] ∨ s ∈ attr.options))

/-- Modelled from the spec (§4.1): attribute `attr` is satisfied by the
bag `props` — required attributes are present, and a present value is
type-correct. -/
def specAttrOk (attr : AttributeDefinition) (props : List (String × GoValue)) : Prop :=
  (attr.required = true → (lookupProp props attr.key).isSome) ∧
  (∀ v, lookupProp props attr.key = some v → specTypeOk attr v)

/-! ### Claim C8 support lemmas -/

/-- The body of the `ValidateProperties` loop accepts an attribute exactly
when the spec's type rules accept it. -/
theorem checkAttr_ok_iff (attr : AttributeDefinition) (props : List (String × GoValue)) :
    checkAttr attr props = .ok () ↔ specAttrOk attr props := by
  unfold checkAttr specAttrOk specTypeOk
  cases hl : lookupProp props attr.key with
  | none =>
    cases hr : attr.required <;> simp
  | some val =>
    by_cases h1 : attr.ty = "string"
    · cases val <;> simp [h1]
    · by_cases h2 : attr.ty = "number"
      · cases val with
        | str s => simp [h2, isNumeric, Option.isSome_iff_ne_none]
        | num q => simp [h2, isNumeric]
        | bool b => simp [h2, isNumeric]
      · by_cases h3 : attr.ty = "boolean"
        · cases val <;> simp [h3]
        · by_cases h4 : attr.ty = "select"
          · cases val with
            | str s =>
              simp [h4, containsStr]
              rcases attr.options with _ | ⟨o, os⟩ <;> simp
            | num q => simp [h4]
            | bool b => simp [h4]
          · simp [h1, h2, h3, h4]

/-- The validation loop accepts exactly when every attribute definition is
satisfied. -/
theorem validateAttrs_ok_iff (attrs : List AttributeDefinition)
    (props : List (String × GoValue)) :
    validateAttrs attrs props = .ok () ↔ ∀ attr ∈ attrs, specAttrOk attr props := by
  induction attrs with
  | nil => simp [validateAttrs]
  | cons a rest ih =>
    unfold validateAttrs
    cases h : checkAttr a props with
    | error e =>
      simp only [List.mem_cons]
      constructor
      · intro hc; cases hc
      · intro hall
        have : checkAttr a props = .ok () := (checkAttr_ok_iff a props).mpr (hall a (Or.inl rfl))
        rw [h] at this; cases this
    | ok u =>
      cases u
      rw [ih]
      constructor
      · intro hall attr hm
        rcases List.mem_cons.mp hm with rfl | hm'
        · exact (checkAttr_ok_iff attr props).mp h
        · exact hall attr hm'
      · intro hall attr hm
        exact hall attr (List.mem_cons_of_mem a hm)

/-! ## SHA-256 (`crypto/sha256`)

A byte-level executable model of SHA-256 over `List Nat` (each element a
byte), with 32-bit words as `Nat` reduced modulo `2 ^ 32`. -/

/-- Right-rotation of a 32-bit word. -/
def rotr32 (n x : Nat) : Nat :=
  ((x >>> n) ||| (x <<< (32 - n))) % 2 ^ 32

/-- SHA-256 small sigma 0. -/
def sSig0 (x : Nat) : Nat := rotr32 7 x ^^^ rotr32 18 x ^^^ (x >>> 3)

/-- SHA-256 small sigma 1. -/
def sSig1 (x : Nat) : Nat := rotr32 17 x ^^^ rotr32 19 x ^^^ (x >>> 10)

/-- SHA-256 big sigma 0. -/
def bSig0 (x : Nat) : Nat := rotr32 2 x ^^^ rotr32 13 x ^^^ rotr32 22 x

/-- SHA-256 big sigma 1. -/
def bSig1 (x : Nat) : Nat := rotr32 6 x ^^^ rotr32 11 x ^^^ rotr32 25 x

/-- SHA-256 choice function; complement is xor against the 32-bit mask. -/
def chFn (x y z : Nat) : Nat := (x &&& y) ^^^ ((x ^^^ (2 ^ 32 - 1)) &&& z)

/-- SHA-256 majority function. -/
def majFn (x y z : Nat) : Nat := (x &&& y) ^^^ (x &&& z) ^^^ (y &&& z)

/-- The 64 SHA-256 round constants. -/
def k256 : List Nat :=
  [1116352408, 1899447441, 3049323471, 3921009573, 961987163,
   1508970993, 2453635748, 2870763221, 3624381080, 310598401,
   607225278, 1426881987, 1925078388, 2162078206, 2614888103,
   3248222580, 3835390401, 4022224774, 264347078, 604807628,
   770255983, 1249150122, 1555081692, 1996064986, 2554220882,
   2821834349, 2952996808, 3210313671, 3336571891, 3584528711,
   113926993, 338241895, 666307205, 773529912, 1294757372,
   1396182291, 1695183700, 1986661051, 2177026350, 2456956037,
   2730485921, 2820302411, 3259730800, 3345764771, 3516065817,
   3600352804, 4094571909, 275423344, 430227734, 506948616,
   659060556, 883997877, 958139571, 1322822218, 1537002063,
   1747873779, 1955562222, 2024104815, 2227730452, 2361852424,
   2428436474, 2756734187, 3204031479, 3329325298]

/-- Working state of the compression function. -/
structure Sha256State where
  a : Nat
  b : Nat
  c : Nat
  d : Nat
  e : Nat
  f : Nat
  g : Nat
  h : Nat
deriving DecidableEq, Repr

/-- The SHA-256 initial hash value. -/
def sha256Init : Sha256State :=
  ⟨1779033703, 3144134277, 1013904242, 2773480762,
   1359893119, 2600822924, 528734635, 1541459225⟩

/-- One round of the compression function on schedule word and constant. -/
def sha256Round (st : Sha256State) (wk : Nat × Nat) : Sha256State :=
  let t1 := (st.h + bSig1 st.e + chFn st.e st.f st.g + wk.1 + wk.2) % 2 ^ 32
  let t2 := (bSig0 st.a + majFn st.a st.b st.c) % 2 ^ 32
  { a := (t1 + t2) % 2 ^ 32, b := st.a, c := st.b, d := st.c,
    e := (st.d + t1) % 2 ^ 32, f := st.e, g := st.f, h := st.g }

/-- Assemble big-endian 32-bit words from bytes. -/
def wordsOfBytes : List Nat → List Nat
  | b0 :: b1 :: b2 :: b3 :: rest =>
    (b0 * 2 ^ 24 + b1 * 2 ^ 16 + b2 * 2 ^ 8 + b3) % 2 ^ 32 :: wordsOfBytes rest
  | _ => []

/-- Extend the 16 chunk words to the 64-entry message schedule. -/
def sha256Schedule (ws : List Nat) : List Nat :=
  (List.range 48).foldl
    (fun acc _ =>
      let n := acc.length
      acc ++ [(sSig1 (acc.getD (n - 2) 0) + acc.getD (n - 7) 0 +
               sSig0 (acc.getD (n - 15) 0) + acc.getD (n - 16) 0) % 2 ^ 32])
    ws

/-- Compress one 64-byte chunk into the running hash state. -/
def sha256Compress (hs : Sha256State) (chunk : List Nat) : Sha256State :=
  let ws := sha256Schedule (wordsOfBytes chunk)
  let st := (ws.zip k256).foldl sha256Round hs
  { a := (hs.a + st.a) % 2 ^ 32, b := (hs.b + st.b) % 2 ^ 32,
    c := (hs.c + st.c) % 2 ^ 32, d := (hs.d + st.d) % 2 ^ 32,
    e := (hs.e + st.e) % 2 ^ 32, f := (hs.f + st.f) % 2 ^ 32,
    g := (hs.g + st.g) % 2 ^ 32, h := (hs.h + st.h) % 2 ^ 32 }

/-- Fold the compression function over all 64-byte chunks. -/
def sha256Chunks (hs : Sha256State) (bytes : List Nat) : Sha256State :=
  match bytes with
  | [] => hs
  | b :: rest =>
    sha256Chunks (sha256Compress hs ((b :: rest).take 64)) ((b :: rest).drop 64)
termination_by bytes.length
decreasing_by
  simp [List.length_drop]
  omega

/-- Big-endian 64-bit encoding of a length in bits. -/
def be64 (n : Nat) : List Nat :=
  [n / 2 ^ 56 % 256, n / 2 ^ 48 % 256, n / 2 ^ 40 % 256, n / 2 ^ 32 % 256,
   n / 2 ^ 24 % 256, n / 2 ^ 16 % 256, n / 2 ^ 8 % 256, n % 256]

/-- SHA-256 padding: append `0x80`, zeros to 56 mod 64, then the bit
length as a big-endian 64-bit integer. -/
def sha256Pad (msg : List Nat) : List Nat :=
  let z := (120 - (msg.length + 1) % 64) % 64
  msg ++ [0x80] ++ List.replicate z 0 ++ be64 (8 * msg.length)

/-- Big-endian byte decomposition of a 32-bit word. -/
def wordBe4 (w : Nat) : List Nat :=
  [w / 2 ^ 24 % 256, w / 2 ^ 16 % 256, w / 2 ^ 8 % 256, w % 256]

/-- The SHA-256 digest (32 bytes) of a byte string. -/
def sha256Bytes (msg : List Nat) : List Nat :=
  let st := sha256Chunks sha256Init (sha256Pad msg)
  wordBe4 st.a ++ wordBe4 st.b ++ wordBe4 st.c ++ wordBe4 st.d ++
  wordBe4 st.e ++ wordBe4 st.f ++ wordBe4 st.g ++ wordBe4 st.h

/-- Lowercase hex character for a value below 16. -/
def hexDigitChar (n : Nat) : Char :=
  if n < 10 then Char.ofNat ('0'.toNat + n) else Char.ofNat ('a'.toNat + n - 10)

/-- Lowercase hex rendering of a byte string: the model of `fmt.Sprintf("%x", _)`. -/
def hexOfBytes (bs : List Nat) : String :=
  (bs.foldr (fun b acc => hexDigitChar (b / 16 % 16) :: hexDigitChar (b % 16) :: acc) []).asString

/-- UTF-8 encoding of one character, as Go produces when converting a
`string` to `[]byte`. -/
def utf8Char (c : Char) : List Nat :=
  let n := c.toNat
  if n < 0x80 then [n]
  else if n < 0x800 then [0xC0 + n / 64, 0x80 + n % 64]
  else if n < 0x10000 then [0xE0 + n / 4096, 0x80 + n / 64 % 64, 0x80 + n % 64]
  else [0xF0 + n / 262144, 0x80 + n / 4096 % 64, 0x80 + n / 64 % 64, 0x80 + n % 64]

/-- The UTF-8 bytes of a string. -/
def utf8Bytes (s : String) : List Nat :=
  s.data.foldr (fun c acc => utf8Char c ++ acc) []

/-- Model of `calculateHash` (identical in `AuditService` and
`AuditLogRepository`): SHA-256 over the concatenation of the serialized
payload, the `RFC3339Nano` timestamp and the previous hash, rendered as
lowercase hex. -/
def calculateHash (payloadJSON timestamp prevHash : String) : String :=
  hexOfBytes (sha256Bytes (utf8Bytes (payloadJSON ++ timestamp ++ prevHash)))

/-! ## Storage layer (`internal/adapters/storage`)

The SQLite stores are modelled as in-memory lists inside one `DB` value.
`audit_logs` rows are kept in ascending `id` (= append) order, which is
what both `GetLastLog` (`ORDER BY id DESC LIMIT 1`) and `VerifyChain`
(`ORDER BY id ASC`) observe. -/

/-- The whole persistent state. -/
structure DB where
  products : List Product
  categories : List Category
  sales : List Sale
  saleItems : List SaleItem
  auditLogs : List AuditRow
deriving DecidableEq, Repr

/-- Model of `ProductRepository.GetByID` (`SELECT * FROM products WHERE id = ?`). -/
def productGetByID (db : DB) (id : String) : Option Product :=
  db.products.find? (fun p => p.id == id)

/-- Model of `CategoryRepository.GetByID`. -/
def findCategory (db : DB) (id : String) : Option Category :=
  db.categories.find? (fun c => c.id == id)

/-- Model of `ProductRepository.Create`: `INSERT` fails when the
`id` primary key or the `sku UNIQUE` constraint is violated. -/
def productCreate (db : DB) (p : Product) : Except Err DB :=
  if db.products.any (fun q => q.id == p.id || q.sku == p.sku) then
    .error (.msg "UNIQUE constraint failed")
  else .ok { db with products := db.products ++ [p] }

/-- Model of `ProductRepository.Update` (`UPDATE products ... WHERE id = ?`). -/
def productUpdate (db : DB) (p : Product) : DB :=
  { db with products := db.products.map (fun q => if q.id == p.id then p else q) }

/-- Model of `ProductRepository.Delete` (`DELETE FROM products WHERE id = ?`). -/
def productDelete (db : DB) (id : String) : DB :=
  { db with products := db.products.filter (fun q => ¬ q.id == id) }

/-- Model of `SaleRepository.CreateSale`. -/
def saleCreate (db : DB) (s : Sale) : DB :=
  { db with sales := db.sales ++ [s] }

/-- Model of `SaleRepository.CreateSaleItem`. -/
def saleItemCreate (db : DB) (si : SaleItem) : DB :=
  { db with saleItems := db.saleItems ++ [si] }

/-- Domain view of a stored audit row (`AuditLogRepository.toDomain`):
a `NULL` `prev_hash` becomes the empty string. -/
def rowToDomain (r : AuditRow) : AuditLog :=
  ⟨r.id, r.action, r.userId, r.timestamp, r.payload, r.prevHash.getD "", r.currentHash⟩

/-- Model of `AuditLogRepository.Create`: the row is appended with the
next auto-increment id, and an empty `prevHash` is stored as SQL `NULL`. -/
def auditCreate (db : DB) (entry : AuditLog) : DB :=
  let row : AuditRow :=
    ⟨(db.auditLogs.length : Int) + 1, entry.action, entry.userId, entry.timestamp,
     entry.payload, if entry.prevHash = "" then none else some entry.prevHash,
     entry.currentHash⟩
  { db with auditLogs := db.auditLogs ++ [row] }

/-- Model of `AuditLogRepository.GetLastLog`: the most recent entry, or
`none` when the store is empty (`sql.ErrNoRows` is mapped to `nil, nil`). -/
def getLastLog (db : DB) : Option AuditLog :=
  db.auditLogs.getLast?.map rowToDomain

/-- The forward walk of `AuditLogRepository.VerifyChain`: `prevHash` is
the expected previous hash, updated to each row's `currentHash`.  Note
that the stored `prev_hash` is compared only when it is non-`NULL`
(`row.PrevHash.Valid && row.PrevHash.String != prevHash`). -/
def verifyLoop : String → List AuditRow → Bool
  | _, [] => true
  | prevHash, row :: rest =>
    if (match row.prevHash with
        | some s => s != prevHash
        | none => false) then false
    else if row.currentHash != calculateHash row.payload row.timestamp prevHash then false
    else verifyLoop row.currentHash rest

/-- Model of `AuditLogRepository.VerifyChain` over the stored rows in
ascending id order. -/
def verifyChain (rows : List AuditRow) : Bool :=
  if rows.isEmpty then true
  else verifyLoop "" rows

/-! ## Audit Chain Service (`AuditService`) -/

/-- The in-memory state of an `AuditService`: the optional explicit
previous-hash override (threaded mode) and the last computed hash. -/
structure AuditSvc where
  prevHash : Option String
  lastHash : String
deriving DecidableEq, Repr

/-- Model of `NewAuditService`. -/
def AuditSvc.new : AuditSvc := ⟨none, ""⟩

/-- Model of `SetPrevHash`. -/
def setPrevHash (svc : AuditSvc) (h : String) : AuditSvc :=
  { svc with prevHash := some h }

/-- The seeding pattern shared by `LogAction`'s ambient mode and the
transactional call sites in `ProcessSale` / `ImportProducts`:
`prevHash := ""` unless the read succeeded (`err == nil`) with a
non-`nil` last entry, in which case its `currentHash` is used.  A read
error is swallowed here, never propagated. -/
def seedPrevHash (lastRead : Except Err (Option AuditLog)) : String :=
  match lastRead with
  | .ok (some lastLog) => lastLog.currentHash
  | _ => ""

/-- Model of `AuditService.LogAction`.  `lastRead` is the outcome of the
`GetLastLog` call the method makes in ambient mode (the pure store model
passes `.ok (getLastLog db)`; claim C10 instantiates it with an error).
`auditFault` injects a failure of the underlying `auditRepo.Create`
(`none` = the insert succeeds). -/
def logAction (svc : AuditSvc) (db : DB) (lastRead : Except Err (Option AuditLog))
    (action userId payloadJSON ts : String) (auditFault : Option Err) :
    Except Err (AuditSvc × DB) :=
  let prevHash :=
    match svc.prevHash with
    | some h => h
    | none => seedPrevHash lastRead
  let currentHash := calculateHash payloadJSON ts prevHash
  let entry : AuditLog := ⟨0, action, userId, ts, payloadJSON, prevHash, currentHash⟩
  let svc2 := { svc with lastHash := currentHash }
  match auditFault with
  | some e => .error e
  | none => .ok (svc2, auditCreate db entry)

/-! ## Atomic Scope Manager -/

/-- Modelled from the spec: the Atomic Scope Manager (§4.4).  The concrete
`ports.TransactionManager` implementation is not among the sources (only
the interface and test mocks are), so its semantics are taken from the
spec: the work function's changes commit as one unit on success, and on
an error return every change made inside the scope is discarded. -/
def withTx {α : Type} (db : DB) (work : DB → Except Err (α × DB)) : DB × Except Err α :=
  match work db with
  | .ok (a, db2) => (db2, .ok a)
  | .error e => (db, .error e)

/-! ## Sale Processor (`sale_service.go`) -/

/-- One requested line item (`ports.SaleItemRequest`). -/
structure SaleItemRequest where
  productId : String
  quantity : Int
deriving DecidableEq, Repr

/-- Serialized JSON payload of the `SALE_PROCESSED` audit entry
(keys in `encoding/json`'s sorted order). -/
def saleAuditPayload (saleId : String) (total : Rat) (itemCount : Nat) : String :=
  "\x7b\"item_count\":" ++ toString itemCount ++ ",\"sale_id\":\"" ++ saleId ++
  "\",\"total_amount\":" ++ toString total ++ "\x7d"

/-- The per-item loop of `ProcessSale` (lines 44-78): quantity check,
product load, stock check, decrement, price-snapshotted sale item,
running total. -/
def saleLoop (saleId : String) :
    List SaleItemRequest → DB → Rat → Except Err (DB × Rat)
  | [], db, total => .ok (db, total)
  | item :: rest, db, total =>
    if item.quantity ≤ 0 then
      .error (.msg ("invalid quantity for product " ++ item.productId))
    else
      match productGetByID db item.productId with
      | none => .error (.wrap ("product " ++ item.productId) (.msg "product not found"))
      | some product =>
        if product.quantity < item.quantity then
          .error (.insufficientStock item.productId product.quantity item.quantity)
        else
          let product2 := { product with quantity := product.quantity - item.quantity }
          let db2 := productUpdate db product2
          let saleItem : SaleItem :=
            ⟨saleId, item.productId, item.quantity, product2.basePrice, product2.costPrice⟩
          let db3 := saleItemCreate db2 saleItem
          saleLoop saleId rest db3 (total + product2.basePrice * (item.quantity : Rat))

/-- Model of `SaleService.ProcessSale`.  `saleId` stands for the
generated UUID, `saleTs` for the sale's `time.Now()`, `auditTs` for the
audit entry's `time.Now()`; `auditFault` injects a failing audit insert. -/
def processSale (db : DB) (items : List SaleItemRequest)
    (saleId saleTs auditTs : String) (auditFault : Option Err) :
    DB × Except Err Sale :=
  if items.length = 0 then (db, .error (.msg "no items in sale"))
  else
    withTx db (fun tx => do
      let (db2, total) ← saleLoop saleId items tx 0
      let sale : Sale := { id := saleId, totalAmount := total, createdAt := saleTs }
      let db3 := saleCreate db2 sale
      let prevHash := seedPrevHash (.ok (getLastLog db3))
      let svc := setPrevHash AuditSvc.new prevHash
      match logAction svc db3 (.ok (getLastLog db3)) "SALE_PROCESSED" "system"
          (saleAuditPayload saleId total items.length) auditTs auditFault with
      | .error e => .error (.wrap "audit log" e)
      | .ok (_, db4) => .ok (sale, db4))

/-! ## Bulk Import Pipeline (`product_service.go: ImportProducts`)

The CSV input stream is modelled as its parsed record list (header row
followed by data rows); the spec places CSV lexing itself out of scope
(§1), and `encoding/csv` yields exactly such records. -/

/-- The Go column-index map `colIndex[h] = i` assigns indices in header
order, so a duplicated header name keeps its last index. -/
def lastIdxOf (headers : List String) (name : String) : Option Nat :=
  ((headers.enum.filter (fun hi => hi.2 == name)).getLast?).map (·.1)

/-- The entries of `colIndex` as an association list: each distinct
header name with its (last) column index.  Go map iteration order is
nondeterministic; any fixed order is observationally equal because the
result is only ever used as a lookup table. -/
def colIndexPairs (headers : List String) : List (String × Nat) :=
  headers.eraseDups.filterMap (fun h => (lastIdxOf headers h).map (fun i => (h, i)))

/-- Build the property bag of one CSV row from all non-mandatory columns. -/
def buildProps (headers : List String) (row : List String) : List (String × GoValue) :=
  ((colIndexPairs headers).filter
      (fun hi => ¬ (hi.1 == "name" || hi.1 == "sku" || hi.1 == "base_price"))).map
    (fun hi => (hi.1, GoValue.str (row.getD hi.2 "")))

/-- Serialized JSON payload of a per-row import audit entry (keys in
`encoding/json`'s sorted order). -/
def importPayload (productId sku name : String) : String :=
  "\x7b\"action\":\"import_product\",\"name\":\"" ++ name ++ "\",\"product_id\":\"" ++
  productId ++ "\",\"sku\":\"" ++ sku ++ "\"\x7d"

/-- The per-row loop of `ImportProducts` (lines 215-279), threading the
locally tracked previous hash.  `gen lineNum` supplies the generated
product UUID, the row's `time.Now()` and the audit entry's `time.Now()`. -/
def importLoop (category : Option Category) (categoryID : String)
    (headers : List String) (gen : Nat → String × String × String)
    (auditFault : Option Err) :
    List (List String) → Nat → DB → String → Nat → Except Err (DB × String × Nat)
  | [], _, db, prevHash, imported => .ok (db, prevHash, imported)
  | row :: rest, lineNum, db, prevHash, imported =>
    if row.length ≠ headers.length then
      .error (.msg ("CSV line " ++ toString (lineNum + 2) ++ ": wrong column count"))
    else
      let name := row.getD ((lastIdxOf headers "name").getD 0) ""
      let sku := row.getD ((lastIdxOf headers "sku").getD 0) ""
      let basePriceStr := row.getD ((lastIdxOf headers "base_price").getD 0) ""
      if name = "" ∨ sku = "" then
        .error (.msg ("CSV line " ++ toString (lineNum + 2) ++ ": name and sku are required"))
      else
        match parseGoFloat basePriceStr with
        | none => .error (.msg ("CSV line " ++ toString (lineNum + 2) ++ ": invalid base_price"))
        | some basePrice =>
          let props := buildProps headers row
          match (match category with
                 | some cat => validateAttrs cat.attributeDefinitions props
                 | none => .ok ()) with
          | .error e => .error (.wrap ("CSV line " ++ toString (lineNum + 2)) e)
          | .ok _ =>
            let ids := gen lineNum
            let product : Product :=
              { id := ids.1, name := name, sku := sku, categoryId := categoryID,
                basePrice := basePrice, costPrice := 0, quantity := 0,
                properties := props, createdAt := ids.2.1, updatedAt := ids.2.1 }
            match productCreate db product with
            | .error e =>
              .error (.wrap ("CSV line " ++ toString (lineNum + 2) ++ ": insert product") e)
            | .ok db2 =>
              let svc := setPrevHash AuditSvc.new prevHash
              match logAction svc db2 (.ok (getLastLog db2)) "CREATE_PRODUCT" "system"
                  (importPayload ids.1 sku name) ids.2.2 auditFault with
              | .error e =>
                .error (.wrap ("CSV line " ++ toString (lineNum + 2) ++ ": audit log") e)
              | .ok (svc2, db3) =>
                importLoop category categoryID headers gen auditFault
                  rest (lineNum + 1) db3 svc2.lastHash (imported + 1)

/-- The stage of `ImportProducts` after category resolution: mandatory
header-column checks and the zero-row short-circuit happen before any
transaction; otherwise one atomic scope wraps the whole row loop. -/
def importRows (db : DB) (categoryID : String) (category : Option Category)
    (headers : List String) (allRows : List (List String))
    (gen : Nat → String × String × String) (auditFault : Option Err) :
    DB × Except Err Nat :=
  if (lastIdxOf headers "name").isNone then
    (db, .error (.msg "missing required CSV column: name"))
  else if (lastIdxOf headers "sku").isNone then
    (db, .error (.msg "missing required CSV column: sku"))
  else if (lastIdxOf headers "base_price").isNone then
    (db, .error (.msg "missing required CSV column: base_price"))
  else if allRows.isEmpty then (db, .ok 0)
  else
    withTx db (fun tx =>
      let prevHash := seedPrevHash (.ok (getLastLog tx))
      match importLoop category categoryID headers gen auditFault
          allRows 0 tx prevHash 0 with
      | .error e => .error e
      | .ok (db2, _, imported) => .ok (imported, db2))

/-- Model of `ProductService.ImportProducts`: category lookup outside any
transaction, header row split off the buffered input, then `importRows`. -/
def importProducts (db : DB) (categoryID : String) (input : List (List String))
    (gen : Nat → String × String × String) (auditFault : Option Err) :
    DB × Except Err Nat :=
  let catRes : Except Err (Option Category) :=
    if categoryID = "" then .ok none
    else
      match findCategory db categoryID with
      | some c => .ok (some c)
      | none => .error (.wrap "category lookup" (.msg "category not found"))
  match catRes with
  | .error e => (db, .error e)
  | .ok category =>
    match input with
    | [] => (db, .error (.wrap "read CSV header" (.msg "EOF")))
    | headers :: allRows =>
      importRows db categoryID category headers allRows gen auditFault

/-! ## Product service CRUD (`product_service.go`) -/

/-- Model of `validateProductProperties`: fetch the category (empty id
means schema-free) and validate the bag against it. -/
def validateProductProperties (db : DB) (product : Product) : Except Err Unit :=
  if product.categoryId = "" then .ok ()
  else
    match findCategory db product.categoryId with
    | none => .error (.msg "category not found")
    | some cat => validateAttrs cat.attributeDefinitions product.properties

/-- Serialized JSON payload of a `CREATE_PRODUCT` audit entry. -/
def createProductPayload (productId sku name : String) : String :=
  "\x7b\"action\":\"create_product\",\"name\":\"" ++ name ++ "\",\"product_id\":\"" ++
  productId ++ "\",\"sku\":\"" ++ sku ++ "\"\x7d"

/-- Serialized JSON payload of an `UPDATE_PRODUCT` audit entry. -/
def updateProductPayload (productId sku : String) : String :=
  "\x7b\"action\":\"update_product\",\"product_id\":\"" ++ productId ++
  "\",\"sku\":\"" ++ sku ++ "\"\x7d"

/-- Serialized JSON payload of a `DELETE_PRODUCT` audit entry. -/
def deleteProductPayload (productId : String) : String :=
  "\x7b\"action\":\"delete_product\",\"product_id\":\"" ++ productId ++ "\"\x7d"

/-- Model of `ProductService.CreateProduct`: validate, insert, then log
the action, ignoring an audit failure (the error is only earmarked for a
monitoring system). -/
def createProduct (db : DB) (product : Product) (logTs : String)
    (auditFault : Option Err) : DB × Except Err Unit :=
  match validateProductProperties db product with
  | .error e => (db, .error e)
  | .ok _ =>
    match productCreate db product with
    | .error e => (db, .error e)
    | .ok db2 =>
      match logAction AuditSvc.new db2 (.ok (getLastLog db2)) "CREATE_PRODUCT" "system"
          (createProductPayload product.id product.sku product.name) logTs auditFault with
      | .ok (_, db3) => (db3, .ok ())
      | .error _ => (db2, .ok ())

/-- Model of `ProductService.UpdateProduct`: validate, update, then log,
ignoring an audit failure. -/
def updateProduct (db : DB) (product : Product) (logTs : String)
    (auditFault : Option Err) : DB × Except Err Unit :=
  match validateProductProperties db product with
  | .error e => (db, .error e)
  | .ok _ =>
    let db2 := productUpdate db product
    match logAction AuditSvc.new db2 (.ok (getLastLog db2)) "UPDATE_PRODUCT" "system"
        (updateProductPayload product.id product.sku) logTs auditFault with
    | .ok (_, db3) => (db3, .ok ())
    | .error _ => (db2, .ok ())

/-- Model of `ProductService.DeleteProduct`: delete, then log, ignoring
an audit failure. -/
def deleteProduct (db : DB) (id : String) (logTs : String)
    (auditFault : Option Err) : DB × Except Err Unit :=
  let db2 := productDelete db id
  match logAction AuditSvc.new db2 (.ok (getLastLog db2)) "DELETE_PRODUCT" "system"
      (deleteProductPayload id) logTs auditFault with
  | .ok (_, db3) => (db3, .ok ())
  | .error _ => (db2, .ok ())

/-! ## Safelisted Dynamic Search (`product_repository.go: Search`,
`product_service.go: SearchProducts`)

The SQL query built by `Search` is modelled relationally over the
product list: each `WHERE` clause becomes a predicate conjunct.  FTS5
`MATCH` semantics live outside this repository, so the full-text clause
is a parameter `ftsMatch` of the search functions; every claim proved
about search holds for all instantiations of it. -/

/-- Search filter options (`domain.FilterOptions`); the dynamic property
filters are an association list standing for the Go map. -/
structure FilterOptions where
  query : String
  categoryId : String
  minPrice : Option Rat
  maxPrice : Option Rat
  properties : List (String × String)
  limit : Int
  offset : Int
deriving DecidableEq, Repr

/-- Model of the `validPropertyKey` regular expression
`^[a-zA-Z][a-zA-Z0-9_]*$`. -/
def validPropertyKey (k : String) : Bool :=
  match k.data with
  | [] => false
  | c :: rest => c.isAlpha && rest.all (fun d => d.isAlphanum || d == '_')

/-- Does a property filter survive the safelist and shape check
(`allowed[key] && validPropertyKey.MatchString(key)`)? -/
def propFilterKept (allowedKeys : List String) (k : String) : Bool :=
  allowedKeys.contains k && validPropertyKey k

/-- Model of the clause `json_extract(p.properties, '$.key') = ?` on one
product row: the stored JSON value under `key` must be the string `v`
(SQLite compares non-text extracted values or `NULL` as unequal to the
text parameter). -/
def propMatches (p : Product) (k v : String) : Bool :=
  match lookupProp p.properties k with
  | some (.str s) => s == v
  | _ => false

/-- The conjunction of all `WHERE` clauses `Search` builds for `opts`. -/
def searchPred (ftsMatch : String → Product → Bool) (opts : FilterOptions)
    (allowedKeys : List String) (p : Product) : Bool :=
  (opts.query == "" || ftsMatch opts.query p) &&
  (opts.categoryId == "" || p.categoryId == opts.categoryId) &&
  (match opts.minPrice with | none => true | some m => decide (m ≤ p.basePrice)) &&
  (match opts.maxPrice with | none => true | some m => decide (p.basePrice ≤ m)) &&
  ((opts.properties.filter (fun kv => propFilterKept allowedKeys kv.1)).all
    (fun kv => propMatches p kv.1 kv.2))

/-- Insert into a list sorted by descending `createdAt`. -/
def insertByCreatedDesc (p : Product) : List Product → List Product
  | [] => [p]
  | q :: rest =>
    if decide (p.createdAt ≥ q.createdAt) then p :: q :: rest
    else q :: insertByCreatedDesc p rest

/-- Deterministic model of `ORDER BY p.created_at DESC`. -/
def sortByCreatedDesc (ps : List Product) : List Product :=
  ps.foldr insertByCreatedDesc []

/-- Model of `ProductRepository.Search`: filter, order, page (a
non-positive limit defaults to 10, a negative offset to 0). -/
def searchRepo (ftsMatch : String → Product → Bool) (db : DB)
    (opts : FilterOptions) (allowedKeys : List String) : List Product :=
  let rows := db.products.filter (searchPred ftsMatch opts allowedKeys)
  let sorted := sortByCreatedDesc rows
  let limit : Int := if opts.limit ≤ 0 then 10 else opts.limit
  let offset : Int := if opts.offset < 0 then 0 else opts.offset
  (sorted.drop offset.toNat).take limit.toNat

/-- Model of `ProductService.SearchProducts`: resolve the category's
attribute keys into the allow-list (empty when no category id), then
search. -/
def searchProducts (ftsMatch : String → Product → Bool) (db : DB)
    (opts : FilterOptions) : Except Err (List Product) :=
  if opts.categoryId = "" then .ok (searchRepo ftsMatch db opts [])
  else
    match findCategory db opts.categoryId with
    | none => .error (.wrap "category lookup" (.msg "category not found"))
    | some c =>
      .ok (searchRepo ftsMatch db opts (c.attributeDefinitions.map (·.key)))

/-- Remove every binding of key `k` from a property-filter map. -/
def erasePropKey (props : List (String × String)) (k : String) :
    List (String × String) :=
  props.filter (fun kv => !(kv.1 == k))

/-! ## General lemmas about the hash and the chain -/

/-- A SHA-256 digest is 32 bytes, whatever the message. -/
theorem sha256Bytes_length (msg : List Nat) : (sha256Bytes msg).length = 32 := by
  simp [sha256Bytes, wordBe4]

/-- Hex rendering doubles the byte count. -/
theorem hexOfBytes_length (bs : List Nat) : (hexOfBytes bs).length = 2 * bs.length := by
  have h : ∀ l : List Char, (List.asString l).length = l.length := fun l => rfl
  unfold hexOfBytes
  rw [h]
  induction bs with
  | nil => rfl
  | cons b rest ih => simp only [List.foldr, List.length_cons]; omega

/-- Every hash the system computes is a 64-character hex string. -/
theorem calculateHash_length (payloadJSON timestamp prevHash : String) :
    (calculateHash payloadJSON timestamp prevHash).length = 64 := by
  unfold calculateHash
  rw [hexOfBytes_length, sha256Bytes_length]

/-- A computed hash is never the empty string. -/
theorem calculateHash_ne_empty (payloadJSON timestamp prevHash : String) :
    calculateHash payloadJSON timestamp prevHash ≠ "" := by
  intro h
  have := congrArg String.length h
  rw [calculateHash_length] at this
  simp [String.length] at this

/-- Rows as produced by the append operation starting from previous hash
`prev`: each row stores its link (an empty previous hash becomes SQL
`NULL`), its `currentHash` is the SHA-256 of payload, timestamp and the
previous hash, and the links thread forward. -/
def wellFormedFrom : String → List AuditRow → Prop
  | _, [] => True
  | prev, r :: rest =>
    r.prevHash = (if prev = "" then none else some prev) ∧
    r.currentHash = calculateHash r.payload r.timestamp prev ∧
    wellFormedFrom r.currentHash rest

/-- The verification walk accepts every well-formed chain segment. -/
theorem verifyLoop_wellFormed (rows : List AuditRow) :
    ∀ prev, wellFormedFrom prev rows → verifyLoop prev rows = true := by
  induction rows with
  | nil => intro prev _; rfl
  | cons r rest ih =>
    intro prev hwf
    obtain ⟨hprev, hcur, hrest⟩ := hwf
    rw [hcur] at hrest
    unfold verifyLoop
    rw [hcur, hprev]
    by_cases hp : prev = ""
    · simp only [if_pos hp]
      simp [ih _ hrest]
    · simp only [if_neg hp]
      simp [ih _ hrest]

/-- The domain-level chain property of claim C2: each appended entry's
`prevHash` (as the empty string when stored `NULL`) is the hash of its
predecessor, starting from `prev`. -/
def chainedFrom : String → List AuditRow → Prop
  | _, [] => True
  | prev, r :: rest => r.prevHash.getD "" = prev ∧ chainedFrom r.currentHash rest

/-- The last committed hash of the store: the `currentHash` of the most
recent audit row, or the empty string on an empty store. -/
def lastChainHash (db : DB) : String :=
  (db.auditLogs.getLast?.map (·.currentHash)).getD ""

/-- The caller-side seeding from the pure store read computes exactly the
last committed hash. -/
theorem seedPrevHash_lastChainHash (db : DB) :
    seedPrevHash (.ok (getLastLog db)) = lastChainHash db := by
  unfold seedPrevHash getLastLog lastChainHash
  cases db.auditLogs.getLast? with
  | none => rfl
  | some r => rfl

/-! ## Claims C4, C10, C3 -/

/-- C4: `verify()` returns true on an empty chain, and returns true on
every chain whose entries were produced by the append operation and not
modified afterwards: each entry's `currentHash` equals the SHA-256 of its
serialized payload, its RFC3339-nanosecond timestamp and its `prevHash`,
and the `prevHash` links are intact. -/
theorem verifyChain_accepts_untampered (rows : List AuditRow) :
    verifyChain [] = true ∧ (wellFormedFrom "" rows → verifyChain rows = true) := by
  refine ⟨rfl, fun hwf => ?_⟩
  unfold verifyChain
  cases rows with
  | nil => rfl
  | cons r rest =>
    simpa using verifyLoop_wellFormed (r :: rest) "" hwf

/-- Witness: C4 applied to a concrete untampered two-entry chain. -/
theorem verifyChain_accepts_untampered_witness :
    wellFormedFrom ""
      [⟨1, "A", "system", "t1", "p1", none, calculateHash "p1" "t1" ""⟩,
       ⟨2, "B", "system", "t2", "p2", some (calculateHash "p1" "t1" ""),
        calculateHash "p2" "t2" (calculateHash "p1" "t1" "")⟩] ∧
    verifyChain
      [⟨1, "A", "system", "t1", "p1", none, calculateHash "p1" "t1" ""⟩,
       ⟨2, "B", "system", "t2", "p2", some (calculateHash "p1" "t1" ""),
        calculateHash "p2" "t2" (calculateHash "p1" "t1" "")⟩] = true := by
  have hne := calculateHash_ne_empty "p1" "t1" ""
  have hwf : wellFormedFrom ""
      [⟨1, "A", "system", "t1", "p1", none, calculateHash "p1" "t1" ""⟩,
       ⟨2, "B", "system", "t2", "p2", some (calculateHash "p1" "t1" ""),
        calculateHash "p2" "t2" (calculateHash "p1" "t1" "")⟩] := by
    refine ⟨rfl, rfl, ?_, rfl, trivial⟩
    simp only [if_neg hne]
  exact ⟨hwf, (verifyChain_accepts_untampered _).2 hwf⟩

/-- C10: in ambient mode (no explicit previous-hash override), a failing
`GetLastLog` read is not propagated: the very same seeding computation
used by `ProcessSale` and `ImportProducts` yields the empty string, and
`LogAction` succeeds, appending an entry whose stored `prev_hash` is
`NULL` (domain-level empty string) — a new chain segment. -/
theorem logAction_swallows_read_error (db : DB) (e : Err)
    (action userId payloadJSON ts : String) :
    seedPrevHash (.error e) = "" ∧
    logAction AuditSvc.new db (.error e) action userId payloadJSON ts none =
      .ok (⟨none, calculateHash payloadJSON ts ""⟩,
        { db with auditLogs := db.auditLogs ++
            [⟨(db.auditLogs.length : Int) + 1, action, userId, ts, payloadJSON, none,
              calculateHash payloadJSON ts ""⟩] }) :=
  ⟨rfl, rfl⟩

/-- Any chain segment containing two adjacent rows whose stored non-NULL
link does not match the earlier row's hash is rejected by the walk,
whatever came before. -/
theorem verifyLoop_adjacent_mismatch (r1 r2 : AuditRow) (post : List AuditRow)
    (s : String) (hstored : r2.prevHash = some s) (hne : s ≠ r1.currentHash) :
    ∀ pre prev, verifyLoop prev (pre ++ r1 :: r2 :: post) = false := by
  intro pre
  induction pre with
  | nil =>
    intro prev
    have h3 : verifyLoop r1.currentHash (r2 :: post) = false := by
      unfold verifyLoop
      rw [hstored]
      simp [hne]
    simp only [List.nil_append]
    unfold verifyLoop
    split
    · rfl
    · split
      · rfl
      · exact h3
  | cons a pre' ih =>
    intro prev
    simp only [List.cons_append]
    unfold verifyLoop
    split
    · rfl
    · split
      · rfl
      · exact ih a.currentHash

/-- C3 (amended): the stored `prevHash` equality check applies only to
entries whose stored `prev_hash` is non-NULL.  For every chain containing
an entry `r2` whose stored non-NULL `prevHash` differs from its
predecessor's `currentHash`, `VerifyChain` returns false. -/
theorem verifyChain_nonnull_mismatch_false (pre post : List AuditRow)
    (r1 r2 : AuditRow) (s : String)
    (hstored : r2.prevHash = some s) (hne : s ≠ r1.currentHash) :
    verifyChain (pre ++ r1 :: r2 :: post) = false := by
  unfold verifyChain
  have hemp : (pre ++ r1 :: r2 :: post).isEmpty = false := by
    cases pre <;> rfl
  rw [hemp]
  simpa using verifyLoop_adjacent_mismatch r1 r2 post s hstored hne pre ""

/-- Witness: C3's amended theorem applied to a concrete tampered chain. -/
theorem verifyChain_nonnull_mismatch_false_witness :
    (⟨2, "B", "u", "t1", "p1", some "bbb", "h2"⟩ : AuditRow).prevHash = some "bbb" ∧
    "bbb" ≠ (⟨1, "A", "u", "t0", "p0", none, "aaa"⟩ : AuditRow).currentHash ∧
    verifyChain
      [⟨1, "A", "u", "t0", "p0", none, "aaa"⟩,
       ⟨2, "B", "u", "t1", "p1", some "bbb", "h2"⟩] = false :=
  ⟨rfl, by decide,
   verifyChain_nonnull_mismatch_false [] []
     ⟨1, "A", "u", "t0", "p0", none, "aaa"⟩
     ⟨2, "B", "u", "t1", "p1", some "bbb", "h2"⟩
     "bbb" rfl (by decide)⟩

/-- C3 counterexample: a stored chain whose second entry's stored
`prev_hash` is `NULL` — the empty string at domain level, differing from
the first entry's `currentHash` — while its `currentHash` was computed
from the expected hash.  The claim says `verify()` must return false on
such a chain; the code returns true, because the `prevHash` comparison is
guarded by `row.PrevHash.Valid`. -/
theorem verifyChain_null_mismatch_cex :
    ((⟨2, "B", "u", "t1", "p1", none,
        calculateHash "p1" "t1" (calculateHash "p0" "t0" "")⟩ : AuditRow)).prevHash.getD "" ≠
      ((⟨1, "A", "u", "t0", "p0", none, calculateHash "p0" "t0" ""⟩ : AuditRow)).currentHash ∧
    verifyChain
      [⟨1, "A", "u", "t0", "p0", none, calculateHash "p0" "t0" ""⟩,
       ⟨2, "B", "u", "t1", "p1", none,
        calculateHash "p1" "t1" (calculateHash "p0" "t0" "")⟩] = true := by
  constructor
  · simpa using (calculateHash_ne_empty "p0" "t0" "").symm
  · simp [verifyChain, verifyLoop]

/-! ## Claim C7 -/

/-- No header cell equals `nm` when `nm` is not among the headers, for
any starting offset of the index enumeration. -/
theorem filter_enumFrom_eq_nil (headers : List String) (nm : String)
    (h : ¬ nm ∈ headers) :
    ∀ n, (headers.enumFrom n).filter (fun hi => hi.2 == nm) = [] := by
  induction headers with
  | nil => intro n; rfl
  | cons a rest ih =>
    intro n
    simp only [List.enumFrom, List.filter]
    have ha : (a == nm) = false := by
      simp only [beq_eq_false_iff_ne]
      intro hc; exact h (hc ▸ List.mem_cons_self a rest)
    simp only [ha]
    exact ih (fun hc => h (List.mem_cons_of_mem a hc)) (n + 1)

/-- A column name absent from the header row has no index in the column
map. -/
theorem lastIdxOf_eq_none (headers : List String) (nm : String)
    (h : ¬ nm ∈ headers) : lastIdxOf headers nm = none := by
  unfold lastIdxOf
  rw [show headers.enum = headers.enumFrom 0 from rfl,
      filter_enumFrom_eq_nil headers nm h 0]
  rfl

/-- The header-check stage aborts with an error and an untouched store
whenever a mandatory column is missing. -/
theorem importRows_missing_column (db : DB) (categoryID : String)
    (category : Option Category) (headers : List String)
    (allRows : List (List String)) (gen : Nat → String × String × String)
    (auditFault : Option Err)
    (hmiss : ¬ "name" ∈ headers ∨ ¬ "sku" ∈ headers ∨ ¬ "base_price" ∈ headers) :
    ∃ e, importRows db categoryID category headers allRows gen auditFault =
      (db, .error e) := by
  unfold importRows
  cases hn : lastIdxOf headers "name" with
  | none => exact ⟨.msg "missing required CSV column: name", by simp [hn]⟩
  | some i =>
    have hname : "name" ∈ headers := by
      by_contra hc
      rw [lastIdxOf_eq_none headers "name" hc] at hn; cases hn
    rcases hmiss with h | h | h
    · exact absurd hname h
    · exact ⟨.msg "missing required CSV column: sku",
        by simp [hn, lastIdxOf_eq_none headers "sku" h]⟩
    · cases hs : lastIdxOf headers "sku" with
      | none => exact ⟨.msg "missing required CSV column: sku", by simp [hn, hs]⟩
      | some j =>
        exact ⟨.msg "missing required CSV column: base_price",
          by simp [hn, hs, lastIdxOf_eq_none headers "base_price" h]⟩

/-- C7: for every CSV input whose header row lacks any of the mandatory
columns (`name`, `sku`, and the price column `base_price`),
`ImportProducts` aborts with an error before opening any transaction and
before processing any row: the store — in particular the product table —
is exactly as before the call. -/
theorem importProducts_missing_column_aborts (db : DB) (categoryID : String)
    (headers : List String) (rows : List (List String))
    (gen : Nat → String × String × String) (auditFault : Option Err)
    (hmiss : ¬ "name" ∈ headers ∨ ¬ "sku" ∈ headers ∨ ¬ "base_price" ∈ headers) :
    ∃ e, importProducts db categoryID (headers :: rows) gen auditFault =
      (db, .error e) := by
  unfold importProducts
  by_cases hcat : categoryID = ""
  · simp only [hcat, if_pos rfl]
    exact importRows_missing_column db "" none headers rows gen auditFault hmiss
  · simp only [if_neg hcat]
    cases hfc : findCategory db categoryID with
    | none => exact ⟨_, rfl⟩
    | some c =>
      exact importRows_missing_column db categoryID (some c) headers rows gen
        auditFault hmiss

/-- Witness: C7 applied to a concrete header that lacks the `sku`
column. -/
theorem importProducts_missing_column_aborts_witness :
    (¬ "name" ∈ ["name", "base_price"] ∨ ¬ "sku" ∈ ["name", "base_price"] ∨
      ¬ "base_price" ∈ ["name", "base_price"]) ∧
    ∃ e, importProducts ⟨[], [], [], [], []⟩ "" [["name", "base_price"], ["Widget", "9.99"]]
        (fun _ => ("u", "t", "t")) none = (⟨[], [], [], [], []⟩, .error e) := by
  refine ⟨Or.inr (Or.inl (by decide)), ?_⟩
  exact importProducts_missing_column_aborts ⟨[], [], [], [], []⟩ "" ["name", "base_price"]
    [["Widget", "9.99"]] (fun _ => ("u", "t", "t")) none (Or.inr (Or.inl (by decide)))

/-! ## Claim C8 -/

/-- C8: the validator applies exactly the spec's type rules to every
category and property bag — required attributes must be present, a
`string` attribute takes exactly strings, `boolean` exactly booleans,
`number` native numerics or strings accepted by `ParseFloat`, and
`select` exactly a case-sensitive member of `options` (any string when
`options` is empty).  In particular a required missing attribute, a
`number` supplied as `"abc"`, or a `select` value outside `options` make
validation fail, while a `number` supplied as `"220"` passes. -/
theorem validateProperties_type_rules (cat : Category) (props : List (String × GoValue)) :
    validateProperties (some cat) props = .ok () ↔
      ∀ attr ∈ cat.attributeDefinitions, specAttrOk attr props := by
  unfold validateProperties
  exact validateAttrs_ok_iff cat.attributeDefinitions props

/-! ## Claim C6 -/


/-- A faulty audit insert makes the first row of the import loop fail. -/
theorem importLoop_fault_errors (category : Option Category) (categoryID : String)
    (headers : List String) (gen : Nat → String × String × String) (e : Err)
    (r : List String) (rs : List (List String)) (lineNum : Nat) (db : DB)
    (prevHash : String) (imported : Nat) :
    ∃ e2, importLoop category categoryID headers gen (some e)
      (r :: rs) lineNum db prevHash imported = .error e2 := by
  unfold importLoop
  dsimp only
  split
  · exact ⟨_, rfl⟩
  · split
    · exact ⟨_, rfl⟩
    · split
      · exact ⟨_, rfl⟩
      · split
        · exact ⟨_, rfl⟩
        · split
          · exact ⟨_, rfl⟩
          · simp only [logAction]
            exact ⟨_, rfl⟩

/-- With a faulty audit insert, the post-category import stage leaves the
store untouched and never reports a positive imported count. -/
theorem importRows_fault (db : DB) (categoryID : String) (category : Option Category)
    (headers : List String) (rows : List (List String))
    (gen : Nat → String × String × String) (e : Err) :
    ∃ r, importRows db categoryID category headers rows gen (some e) = (db, r) ∧
      ∀ n, r = Except.ok n → n = 0 := by
  unfold importRows
  split
  · exact ⟨_, rfl, fun n h => by cases h⟩
  · split
    · exact ⟨_, rfl, fun n h => by cases h⟩
    · split
      · exact ⟨_, rfl, fun n h => by cases h⟩
      · split
        · exact ⟨_, rfl, fun n h => by cases h; rfl⟩
        · rename_i hne
          cases rows with
          | nil => simp at hne
          | cons r rs =>
            obtain ⟨e2, he2⟩ := importLoop_fault_errors category categoryID headers
              gen e r rs 0 db (seedPrevHash (.ok (getLastLog db))) 0
            unfold withTx
            dsimp only
            rw [he2]
            exact ⟨_, rfl, fun n h => by cases h⟩

/-- C6: the audit-failure asymmetry.  When the audit append fails,
`CreateProduct`, `UpdateProduct` and `DeleteProduct` still succeed with
the primary mutation committed and no audit entry appended, whereas
`ProcessSale` always returns an error with the state of the store
unchanged, and `ImportProducts` leaves the store unchanged and never
reports a positive imported count. -/
theorem audit_failure_asymmetry :
    (∀ db product logTs e db2,
        validateProductProperties db product = .ok () →
        productCreate db product = .ok db2 →
        createProduct db product logTs (some e) = (db2, .ok ()) ∧
          db2.auditLogs = db.auditLogs) ∧
    (∀ db product logTs e,
        validateProductProperties db product = .ok () →
        updateProduct db product logTs (some e) = (productUpdate db product, .ok ()) ∧
          (productUpdate db product).auditLogs = db.auditLogs) ∧
    (∀ db id logTs e,
        deleteProduct db id logTs (some e) = (productDelete db id, .ok ()) ∧
          (productDelete db id).auditLogs = db.auditLogs) ∧
    (∀ db items saleId saleTs auditTs e,
        ∃ e2, processSale db items saleId saleTs auditTs (some e) = (db, .error e2)) ∧
    (∀ db categoryID input gen e,
        (importProducts db categoryID input gen (some e)).1 = db ∧
        ∀ n, (importProducts db categoryID input gen (some e)).2 = .ok n → n = 0) := by
  refine ⟨?_, ?_, ?_, ?_, ?_⟩
  · intro db product logTs e db2 hval hins
    have hlogs : db2.auditLogs = db.auditLogs := by
      unfold productCreate at hins
      split at hins
      · cases hins
      · cases hins; rfl
    refine ⟨?_, hlogs⟩
    unfold createProduct
    rw [hval, hins]
    simp only [logAction]
  · intro db product logTs e hval
    refine ⟨?_, rfl⟩
    unfold updateProduct
    rw [hval]
    simp only [logAction]
  · intro db id logTs e
    refine ⟨?_, rfl⟩
    unfold deleteProduct
    simp only [logAction]
  · intro db items saleId saleTs auditTs e
    cases items with
    | nil => exact ⟨.msg "no items in sale", rfl⟩
    | cons it rest =>
      unfold processSale
      simp only [List.length_cons, Nat.succ_ne_zero, if_false]
      unfold withTx
      dsimp only
      cases hloop : saleLoop saleId (it :: rest) db 0 with
      | error e1 =>
        refine ⟨e1, ?_⟩
        simp only [bind, Except.bind, hloop]
      | ok p =>
        refine ⟨.wrap "audit log" e, ?_⟩
        simp only [bind, Except.bind, hloop]
        simp only [logAction]
  · intro db categoryID input gen e
    unfold importProducts
    by_cases hcat : categoryID = ""
    · simp only [hcat, if_pos rfl]
      cases input with
      | nil => exact ⟨rfl, fun n h => by cases h⟩
      | cons headers rows =>
        obtain ⟨r, hr, hok⟩ := importRows_fault db "" none headers rows gen e
        simp only [if_true]
        rw [hr]
        exact ⟨rfl, hok⟩
    · simp only [if_neg hcat]
      cases hfc : findCategory db categoryID with
      | none => exact ⟨rfl, fun n h => by cases h⟩
      | some c =>
        cases input with
        | nil => exact ⟨rfl, fun n h => by cases h⟩
        | cons headers rows =>
          obtain ⟨r, hr, hok⟩ := importRows_fault db categoryID (some c) headers rows gen e
          dsimp only
          rw [hr]
          exact ⟨rfl, hok⟩

/-- Witness: C6's five conclusions at concrete inputs. -/
theorem audit_failure_asymmetry_witness :
    (createProduct ⟨[], [], [], [], []⟩ ⟨"p1", "Widget", "S1", "", 10, 5, 3, [], "t0", "t0"⟩
        "t1" (some (.msg "boom")) =
      ((⟨[⟨"p1", "Widget", "S1", "", 10, 5, 3, [], "t0", "t0"⟩], [], [], [], []⟩ : DB), .ok ()) ∧
      (⟨[⟨"p1", "Widget", "S1", "", 10, 5, 3, [], "t0", "t0"⟩], [], [], [], []⟩ : DB).auditLogs =
        (⟨[], [], [], [], []⟩ : DB).auditLogs) ∧
    (updateProduct ⟨[], [], [], [], []⟩ ⟨"p1", "Widget", "S1", "", 10, 5, 3, [], "t0", "t0"⟩
        "t1" (some (.msg "boom")) =
      (productUpdate ⟨[], [], [], [], []⟩ ⟨"p1", "Widget", "S1", "", 10, 5, 3, [], "t0", "t0"⟩,
        .ok ()) ∧
      (productUpdate ⟨[], [], [], [], []⟩
          ⟨"p1", "Widget", "S1", "", 10, 5, 3, [], "t0", "t0"⟩).auditLogs =
        (⟨[], [], [], [], []⟩ : DB).auditLogs) ∧
    (deleteProduct ⟨[], [], [], [], []⟩ "p1" "t1" (some (.msg "boom")) =
      (productDelete ⟨[], [], [], [], []⟩ "p1", .ok ()) ∧
      (productDelete ⟨[], [], [], [], []⟩ "p1").auditLogs =
        (⟨[], [], [], [], []⟩ : DB).auditLogs) ∧
    (∃ e2, processSale ⟨[⟨"p1", "Widget", "S1", "", 10, 5, 3, [], "t0", "t0"⟩], [], [], [], []⟩
        [⟨"p1", 1⟩] "s" "ts" "ta" (some (.msg "boom")) =
      ((⟨[⟨"p1", "Widget", "S1", "", 10, 5, 3, [], "t0", "t0"⟩], [], [], [], []⟩ : DB),
        .error e2)) ∧
    ((importProducts ⟨[], [], [], [], []⟩ "" [["name", "sku", "base_price"], ["A", "S2", "1"]]
        (fun _ => ("u", "t", "t")) (some (.msg "boom"))).1 = (⟨[], [], [], [], []⟩ : DB) ∧
      ∀ n, (importProducts ⟨[], [], [], [], []⟩ "" [["name", "sku", "base_price"], ["A", "S2", "1"]]
        (fun _ => ("u", "t", "t")) (some (.msg "boom"))).2 = .ok n → n = 0) := by
  refine ⟨?_, ?_, ?_, ?_, ?_⟩
  · exact audit_failure_asymmetry.1 _ _ "t1" (.msg "boom") _ rfl rfl
  · exact audit_failure_asymmetry.2.1 _ _ "t1" (.msg "boom") rfl
  · exact audit_failure_asymmetry.2.2.1 _ "p1" "t1" (.msg "boom")
  · exact audit_failure_asymmetry.2.2.2.1 _ [⟨"p1", 1⟩] "s" "ts" "ta" (.msg "boom")
  · exact audit_failure_asymmetry.2.2.2.2 _ "" [["name", "sku", "base_price"], ["A", "S2", "1"]]
      (fun _ => ("u", "t", "t")) (.msg "boom")

/-! ## Claim C1 -/

/-- An `UPDATE ... WHERE id` commutes with a keyed `SELECT`: the row
found after the update is the updated image of the row found before. -/
theorem find_map_update (ps : List Product) (q : Product) (i : String) :
    (ps.map (fun r => if r.id == q.id then q else r)).find? (fun r => r.id == i) =
      (ps.find? (fun r => r.id == i)).map (fun p => if p.id == q.id then q else p) := by
  induction ps with
  | nil => rfl
  | cons a rest ih =>
    rw [List.map_cons]
    by_cases ha : (a.id == q.id) = true
    · rw [if_pos ha]
      have haq : a.id = q.id := by simpa using ha
      by_cases hi : (a.id == i) = true
      · have hqi : (q.id == i) = true := by rw [← haq]; exact hi
        rw [@List.find?_cons_of_pos Product (fun r => r.id == i) q _ hqi,
            @List.find?_cons_of_pos Product (fun r => r.id == i) a _ hi,
            Option.map_some', if_pos ha]
      · have hqi : ¬ (q.id == i) = true := by rw [← haq]; exact hi
        rw [@List.find?_cons_of_neg Product (fun r => r.id == i) q _ hqi,
            @List.find?_cons_of_neg Product (fun r => r.id == i) a _ hi]
        exact ih
    · rw [if_neg ha]
      by_cases hi : (a.id == i) = true
      · rw [@List.find?_cons_of_pos Product (fun r => r.id == i) a _ hi,
            @List.find?_cons_of_pos Product (fun r => r.id == i) a _ hi,
            Option.map_some', if_neg ha]
      · rw [@List.find?_cons_of_neg Product (fun r => r.id == i) a _ hi,
            @List.find?_cons_of_neg Product (fun r => r.id == i) a _ hi]
        exact ih

theorem productGetByID_update (db : DB) (q : Product) (i : String) :
    productGetByID (productUpdate db q) i =
      (productGetByID db i).map (fun p => if p.id == q.id then q else p) :=
  find_map_update db.products q i

def stockBounded (db0 db : DB) : Prop :=
  ∀ pid p0, productGetByID db0 pid = some p0 →
    ∃ p, productGetByID db pid = some p ∧ p.quantity ≤ p0.quantity

theorem saleLoop_insufficient_err (saleId : String) (bad : SaleItemRequest)
    (rest : List SaleItemRequest) (db0 : DB)
    (hbadq : 0 < bad.quantity)
    (hbadp : ∃ p0, productGetByID db0 bad.productId = some p0 ∧
      p0.quantity < bad.quantity) :
    ∀ pre db total, stockBounded db0 db →
      (∀ it ∈ pre, 0 < it.quantity ∧ (productGetByID db0 it.productId).isSome) →
      ∃ e, saleLoop saleId (pre ++ bad :: rest) db total = .error e ∧
        errIsInsufficientStock e = true := by
  intro pre
  induction pre with
  | nil =>
    intro db total hsb _
    obtain ⟨p0, hp0, hlt⟩ := hbadp
    obtain ⟨p, hp, hle⟩ := hsb _ _ hp0
    simp only [List.nil_append]
    unfold saleLoop
    rw [if_neg (by omega : ¬ bad.quantity ≤ 0), hp]
    dsimp only
    rw [if_pos (by omega : p.quantity < bad.quantity)]
    exact ⟨_, rfl, rfl⟩
  | cons a pre' ih =>
    intro db total hsb hpre
    obtain ⟨haq, hap⟩ := hpre a (List.mem_cons_self a pre')
    obtain ⟨pa0, hpa0⟩ := Option.isSome_iff_exists.mp hap
    obtain ⟨pa, hpa, _⟩ := hsb _ _ hpa0
    simp only [List.cons_append]
    unfold saleLoop
    rw [if_neg (by omega : ¬ a.quantity ≤ 0), hpa]
    dsimp only
    by_cases hstock : pa.quantity < a.quantity
    · rw [if_pos hstock]
      exact ⟨_, rfl, rfl⟩
    · rw [if_neg hstock]
      refine ih _ _ ?_ (fun it hit => hpre it (List.mem_cons_of_mem a hit))
      intro pid p0 hp0
      obtain ⟨p, hp, hle⟩ := hsb pid p0 hp0
      rw [show productGetByID
          (saleItemCreate (productUpdate db { pa with quantity := pa.quantity - a.quantity }) _) pid =
          productGetByID (productUpdate db { pa with quantity := pa.quantity - a.quantity }) pid
        from rfl, productGetByID_update, hp, Option.map_some']
      refine ⟨_, rfl, ?_⟩
      by_cases hid : (p.id == ({ pa with quantity := pa.quantity - a.quantity } : Product).id) = true
      · rw [if_pos hid]
        have hpid : p.id = pa.id := by simpa using hid
        have hpi : p.id = pid := by simpa using List.find?_some hp
        have hai : pa.id = a.productId := by simpa using List.find?_some hpa
        have hpeq : p = pa := by
          have h2 : productGetByID db pid = some pa := by
            rw [show pid = a.productId by rw [← hpi, hpid, hai]]
            exact hpa
          rw [hp] at h2
          exact Option.some.inj h2
        subst hpeq
        simp only []
        omega
      · rw [if_neg hid]
        exact hle

/-- On an error outcome the atomic scope leaves the store untouched. -/
theorem withTx_error_fst {α : Type} (db : DB) (work : DB → Except Err (α × DB))
    (e : Err) (h : (withTx db work).2 = .error e) : (withTx db work).1 = db := by
  unfold withTx at h ⊢
  cases hw : work db with
  | ok p =>
    rw [hw] at h
    cases p
    dsimp at h
    cases h
  | error e1 => rfl

/-- C1 (amended): `ProcessSale` fails item by item in input order, so if
every item before `bad` has a positive quantity and references an
existing product, and `bad` requests more than its product's on-hand
quantity, the returned error satisfies `ErrInsufficientStock`; and for
every failed `ProcessSale` call whatsoever the operation is atomic — the
persisted store equals the store before the call (no stock change, no
`Sale`, no `SaleItem`, no `AuditLog` entry). -/
theorem processSale_insufficient_stock (db : DB) (pre rest : List SaleItemRequest)
    (bad : SaleItemRequest) (saleId saleTs auditTs : String) (auditFault : Option Err)
    (hpre : ∀ it ∈ pre, 0 < it.quantity ∧ (productGetByID db it.productId).isSome)
    (hbadq : 0 < bad.quantity)
    (hbadp : ∃ p0, productGetByID db bad.productId = some p0 ∧
      p0.quantity < bad.quantity) :
    (∃ e, processSale db (pre ++ bad :: rest) saleId saleTs auditTs auditFault =
        (db, .error e) ∧ errIsInsufficientStock e = true) ∧
    (∀ items saleId2 saleTs2 auditTs2 fault2 e2,
        (processSale db items saleId2 saleTs2 auditTs2 fault2).2 = .error e2 →
        (processSale db items saleId2 saleTs2 auditTs2 fault2).1 = db) := by
  constructor
  · obtain ⟨e, he, hins⟩ := saleLoop_insufficient_err saleId bad rest db hbadq hbadp
      pre db 0 (fun pid p0 h => ⟨p0, h, le_refl _⟩) hpre
    refine ⟨e, ?_, hins⟩
    unfold processSale
    rw [if_neg (by simp : ¬ (pre ++ bad :: rest).length = 0)]
    unfold withTx
    dsimp only
    simp only [bind, Except.bind, he]
  · intro items saleId2 saleTs2 auditTs2 fault2 e2 h2
    unfold processSale at h2 ⊢
    by_cases hlen : items.length = 0
    · rw [if_pos hlen]
    · rw [if_neg hlen] at h2 ⊢
      exact withTx_error_fst db _ e2 h2

/-- Witness: C1's amended theorem at a concrete store with stock 5 and a
request for 6. -/
theorem processSale_insufficient_stock_witness :
    (∃ e, processSale ⟨[⟨"p1", "Widget", "S1", "", 10, 5, 5, [], "t0", "t0"⟩], [], [], [], []⟩
        [⟨"p1", 6⟩] "s1" "ts" "ta" none =
        ((⟨[⟨"p1", "Widget", "S1", "", 10, 5, 5, [], "t0", "t0"⟩], [], [], [], []⟩ : DB),
          .error e) ∧
        errIsInsufficientStock e = true) ∧
    (∀ items saleId2 saleTs2 auditTs2 fault2 e2,
        (processSale ⟨[⟨"p1", "Widget", "S1", "", 10, 5, 5, [], "t0", "t0"⟩], [], [], [], []⟩
          items saleId2 saleTs2 auditTs2 fault2).2 = .error e2 →
        (processSale ⟨[⟨"p1", "Widget", "S1", "", 10, 5, 5, [], "t0", "t0"⟩], [], [], [], []⟩
          items saleId2 saleTs2 auditTs2 fault2).1 =
          ⟨[⟨"p1", "Widget", "S1", "", 10, 5, 5, [], "t0", "t0"⟩], [], [], [], []⟩) :=
  processSale_insufficient_stock
    ⟨[⟨"p1", "Widget", "S1", "", 10, 5, 5, [], "t0", "t0"⟩], [], [], [], []⟩
    [] [] ⟨"p1", 6⟩ "s1" "ts" "ta" none
    (fun it hit => absurd hit (List.not_mem_nil it)) (by decide)
    ⟨⟨"p1", "Widget", "S1", "", 10, 5, 5, [], "t0", "t0"⟩, rfl, by decide⟩

/-- C1 counterexample: a sale request containing an item whose quantity
exceeds the on-hand stock can still fail with a different error when an
earlier item fails first — here the first item references a missing
product, so the returned error does not satisfy `ErrInsufficientStock`
even though the second item exceeds stock 5 with a request of 6. -/
theorem processSale_insufficient_preempted_cex :
    (∃ it ∈ [(⟨"ghost", 1⟩ : SaleItemRequest), ⟨"p1", 6⟩], ∃ p,
        productGetByID ⟨[⟨"p1", "Widget", "S1", "", 10, 5, 5, [], "t0", "t0"⟩], [], [], [], []⟩
          it.productId = some p ∧ p.quantity < it.quantity) ∧
    (processSale ⟨[⟨"p1", "Widget", "S1", "", 10, 5, 5, [], "t0", "t0"⟩], [], [], [], []⟩
        [⟨"ghost", 1⟩, ⟨"p1", 6⟩] "s1" "ts" "ta" none).2 =
      .error (.wrap "product ghost" (.msg "product not found")) ∧
    errIsInsufficientStock (.wrap "product ghost" (.msg "product not found")) = false := by
  refine ⟨⟨⟨"p1", 6⟩, by decide, ⟨"p1", "Widget", "S1", "", 10, 5, 5, [], "t0", "t0"⟩,
    rfl, by decide⟩, rfl, rfl⟩

/-! ## Claim C5 -/

/-- The unit-price snapshot the sale takes for a product: its current
`basePrice` at the time of the call. -/
def snapBase (db : DB) (pid : String) : Rat :=
  ((productGetByID db pid).map (·.basePrice)).getD 0

/-- The cost-price snapshot the sale takes for a product. -/
def snapCost (db : DB) (pid : String) : Rat :=
  ((productGetByID db pid).map (·.costPrice)).getD 0

/-- The sale item recorded for one requested line: quantity plus the
immutable price snapshots taken from the product at sale time. -/
def mkSaleItem (db : DB) (saleId : String) (it : SaleItemRequest) : SaleItem :=
  ⟨saleId, it.productId, it.quantity, snapBase db it.productId, snapCost db it.productId⟩

/-- The sum over all items of snapshotted unit price times requested
quantity. -/
def saleTotal (db : DB) (items : List SaleItemRequest) : Rat :=
  (items.map (fun it => snapBase db it.productId * (it.quantity : Rat))).sum

/-- The per-item loop on an all-valid request: it succeeds, decrements
each referenced product by exactly its requested quantity, appends one
price-snapshotted sale item per request in order, accumulates the total,
and touches nothing else. -/
theorem saleLoop_ok_characterization (saleId : String) :
    ∀ (items : List SaleItemRequest) (db : DB) (total : Rat),
      (∀ it ∈ items, 0 < it.quantity ∧ ∃ p, productGetByID db it.productId = some p ∧
        it.quantity ≤ p.quantity) →
      (items.map (·.productId)).Nodup →
      ∃ db', saleLoop saleId items db total = .ok (db', total + saleTotal db items) ∧
        db'.saleItems = db.saleItems ++ items.map (mkSaleItem db saleId) ∧
        db'.sales = db.sales ∧ db'.auditLogs = db.auditLogs ∧
        db'.categories = db.categories ∧
        (∀ it ∈ items, ∃ p, productGetByID db it.productId = some p ∧
          productGetByID db' it.productId =
            some { p with quantity := p.quantity - it.quantity }) ∧
        (∀ i, (∀ it ∈ items, ¬ it.productId = i) →
          productGetByID db' i = productGetByID db i) := by
  intro items
  induction items with
  | nil =>
    intro db total _ _
    refine ⟨db, ?_, by simp, rfl, rfl, rfl, by simp, fun i _ => rfl⟩
    simp [saleLoop, saleTotal]
  | cons a rest ih =>
    intro db total hvalid hnodup
    obtain ⟨haq, pa, hpa, hstock⟩ := hvalid a (List.mem_cons_self a rest)
    have hpaid : pa.id = a.productId := by simpa using List.find?_some hpa
    have hn : (∀ x ∈ rest, ¬ x.productId = a.productId) ∧
        (rest.map (·.productId)).Nodup := by simpa using hnodup
    have hdist : ∀ it ∈ rest, ¬ it.productId = a.productId := hn.1
    have htrans : ∀ i, ¬ i = a.productId →
        productGetByID
          (saleItemCreate
            (productUpdate db { pa with quantity := pa.quantity - a.quantity })
            ⟨saleId, a.productId, a.quantity,
              ({ pa with quantity := pa.quantity - a.quantity } : Product).basePrice,
              ({ pa with quantity := pa.quantity - a.quantity } : Product).costPrice⟩) i =
          productGetByID db i := by
      intro i hi
      rw [show productGetByID
          (saleItemCreate (productUpdate db { pa with quantity := pa.quantity - a.quantity }) _) i =
          productGetByID (productUpdate db { pa with quantity := pa.quantity - a.quantity }) i
        from rfl, productGetByID_update]
      cases hfind : productGetByID db i with
      | none => rfl
      | some p =>
        rw [Option.map_some']
        have hpi : p.id = i := by simpa using List.find?_some hfind
        have hne : ¬ (p.id ==
            ({ pa with quantity := pa.quantity - a.quantity } : Product).id) = true := by
          simp only [beq_iff_eq]
          show ¬ p.id = pa.id
          rw [hpi, hpaid]
          exact fun hc => hi hc
        rw [if_neg hne]
    have hvalid' : ∀ it ∈ rest, 0 < it.quantity ∧
        ∃ p, productGetByID
          (saleItemCreate
            (productUpdate db { pa with quantity := pa.quantity - a.quantity })
            ⟨saleId, a.productId, a.quantity,
              ({ pa with quantity := pa.quantity - a.quantity } : Product).basePrice,
              ({ pa with quantity := pa.quantity - a.quantity } : Product).costPrice⟩)
            it.productId = some p ∧ it.quantity ≤ p.quantity := by
      intro it hit
      obtain ⟨h1, p, h2, h3⟩ := hvalid it (List.mem_cons_of_mem a hit)
      exact ⟨h1, p, by rw [htrans it.productId (hdist it hit)]; exact h2, h3⟩
    obtain ⟨db'', hloop, hitems, hsales, hlogs, hcats, hdec, hpres⟩ :=
      ih _ (total + ({ pa with quantity := pa.quantity - a.quantity } : Product).basePrice *
        (a.quantity : Rat)) hvalid' hn.2
    have hsnapa : snapBase db a.productId = pa.basePrice := by
      unfold snapBase
      rw [hpa, Option.map_some']
      rfl
    refine ⟨db'', ?_, ?_, ?_, ?_, ?_, ?_, ?_⟩
    · unfold saleLoop
      rw [if_neg (by omega : ¬ a.quantity ≤ 0), hpa]
      dsimp only
      rw [if_neg (by omega : ¬ pa.quantity < a.quantity)]
      rw [hloop]
      have htot : saleTotal
          (saleItemCreate
            (productUpdate db { pa with quantity := pa.quantity - a.quantity })
            ⟨saleId, a.productId, a.quantity,
              ({ pa with quantity := pa.quantity - a.quantity } : Product).basePrice,
              ({ pa with quantity := pa.quantity - a.quantity } : Product).costPrice⟩) rest =
          saleTotal db rest := by
        unfold saleTotal
        refine congrArg List.sum (List.map_congr_left ?_)
        intro it hit
        unfold snapBase
        rw [htrans it.productId (hdist it hit)]
      rw [htot]
      have harith : total + ({ pa with quantity := pa.quantity - a.quantity } : Product).basePrice *
          (a.quantity : Rat) + saleTotal db rest = total + saleTotal db (a :: rest) := by
        unfold saleTotal
        rw [List.map_cons, List.sum_cons, hsnapa]
        show total + pa.basePrice * (a.quantity : Rat) + _ = _
        ring
      rw [harith]
    · rw [hitems]
      have hmaps : rest.map (mkSaleItem
          (saleItemCreate
            (productUpdate db { pa with quantity := pa.quantity - a.quantity })
            ⟨saleId, a.productId, a.quantity,
              ({ pa with quantity := pa.quantity - a.quantity } : Product).basePrice,
              ({ pa with quantity := pa.quantity - a.quantity } : Product).costPrice⟩) saleId) =
          rest.map (mkSaleItem db saleId) := by
        refine List.map_congr_left ?_
        intro it hit
        unfold mkSaleItem snapBase snapCost
        rw [htrans it.productId (hdist it hit)]
      rw [hmaps]
      have hsi : (⟨saleId, a.productId, a.quantity,
          ({ pa with quantity := pa.quantity - a.quantity } : Product).basePrice,
          ({ pa with quantity := pa.quantity - a.quantity } : Product).costPrice⟩ : SaleItem) =
          mkSaleItem db saleId a := by
        unfold mkSaleItem snapBase snapCost
        rw [hpa, Option.map_some', Option.map_some']
        rfl
      have hsc : (saleItemCreate
          (productUpdate db { pa with quantity := pa.quantity - a.quantity })
          ⟨saleId, a.productId, a.quantity,
            ({ pa with quantity := pa.quantity - a.quantity } : Product).basePrice,
            ({ pa with quantity := pa.quantity - a.quantity } : Product).costPrice⟩).saleItems =
          db.saleItems ++ [(⟨saleId, a.productId, a.quantity,
            ({ pa with quantity := pa.quantity - a.quantity } : Product).basePrice,
            ({ pa with quantity := pa.quantity - a.quantity } : Product).costPrice⟩ : SaleItem)] :=
        rfl
      rw [hsc, hsi, List.map_cons, List.append_assoc]
      rfl
    · exact hsales
    · exact hlogs
    · exact hcats
    · intro it hit
      rcases List.mem_cons.mp hit with rfl | hit'
      · refine ⟨pa, hpa, ?_⟩
        rw [hpres it.productId hdist]
        rw [show productGetByID
            (saleItemCreate (productUpdate db { pa with quantity := pa.quantity - it.quantity }) _)
              it.productId =
            productGetByID (productUpdate db { pa with quantity := pa.quantity - it.quantity })
              it.productId from rfl, productGetByID_update, hpa, Option.map_some']
        rw [if_pos (by simp :
          (pa.id == ({ pa with quantity := pa.quantity - it.quantity } : Product).id) = true)]
      · obtain ⟨p, h1, h2⟩ := hdec it hit'
        refine ⟨p, ?_, h2⟩
        rw [← htrans it.productId (hdist it hit')]
        exact h1
    · intro i hall
      rw [hpres i (fun it hit => hall it (List.mem_cons_of_mem a hit)),
          htrans i (fun hc => hall a (List.mem_cons_self a rest) hc.symm)]

/-- The stored row `AuditLogRepository.Create` produces for an entry. -/
def auditRowOf (db : DB) (entry : AuditLog) : AuditRow :=
  ⟨(db.auditLogs.length : Int) + 1, entry.action, entry.userId, entry.timestamp,
   entry.payload, if entry.prevHash = "" then none else some entry.prevHash,
   entry.currentHash⟩

/-- Appending an audit entry appends exactly its stored row. -/
theorem auditCreate_logs (db : DB) (entry : AuditLog) :
    (auditCreate db entry).auditLogs = db.auditLogs ++ [auditRowOf db entry] :=
  rfl

/-- C5: for every non-empty sale over distinct products with sufficient
stock, `ProcessSale` returns a `Sale` whose `totalAmount` is the sum over
all items of snapshotted unit price times requested quantity, decrements
each referenced product's stock by exactly its requested quantity,
records one `SaleItem` per request carrying the product's `basePrice` and
`costPrice` as snapshots, persists the `Sale`, and appends exactly one
new audit entry with action `SALE_PROCESSED`. -/
theorem processSale_success (db : DB) (items : List SaleItemRequest)
    (saleId saleTs auditTs : String)
    (hne : items ≠ [])
    (hvalid : ∀ it ∈ items, 0 < it.quantity ∧ ∃ p, productGetByID db it.productId = some p ∧
      it.quantity ≤ p.quantity)
    (hnodup : (items.map (·.productId)).Nodup) :
    ∃ db', processSale db items saleId saleTs auditTs none =
        (db', .ok ⟨saleId, saleTotal db items, saleTs⟩) ∧
      (∀ it ∈ items, ∃ p, productGetByID db it.productId = some p ∧
        productGetByID db' it.productId =
          some { p with quantity := p.quantity - it.quantity }) ∧
      db'.saleItems = db.saleItems ++ items.map (mkSaleItem db saleId) ∧
      db'.sales = db.sales ++ [⟨saleId, saleTotal db items, saleTs⟩] ∧
      (∃ row, db'.auditLogs = db.auditLogs ++ [row] ∧ row.action = "SALE_PROCESSED") := by
  obtain ⟨dbL, hloop, hitems, hsales, hlogs, hcats, hdec, hpres⟩ :=
    saleLoop_ok_characterization saleId items db 0 hvalid hnodup
  rw [zero_add] at hloop
  unfold processSale
  rw [if_neg (fun h => hne (List.length_eq_zero.mp h))]
  unfold withTx
  dsimp only
  simp only [bind, Except.bind, hloop]
  simp only [logAction]
  refine ⟨_, rfl, ?_, ?_, ?_, ?_⟩
  · exact hdec
  · exact hitems
  · show (saleCreate dbL _).sales = _
    unfold saleCreate
    dsimp only
    rw [hsales]
  · have hdl : (saleCreate dbL ⟨saleId, saleTotal db items, saleTs⟩).auditLogs =
        db.auditLogs := hlogs
    exact ⟨_, by rw [auditCreate_logs, hdl], rfl⟩

/-- Witness: C5 at a concrete two-product store, matching the Go test
`TestProcessSale_Success` (total 40, stocks 98 and 49). -/
theorem processSale_success_witness :
    saleTotal ⟨[⟨"p1", "Widget", "S1", "", 10, 5, 100, [], "t0", "t0"⟩,
        ⟨"p2", "Gadget", "S2", "", 20, 8, 50, [], "t0", "t0"⟩], [], [], [], []⟩
      [⟨"p1", 2⟩, ⟨"p2", 1⟩] = 40 ∧
    (∃ db', processSale ⟨[⟨"p1", "Widget", "S1", "", 10, 5, 100, [], "t0", "t0"⟩,
        ⟨"p2", "Gadget", "S2", "", 20, 8, 50, [], "t0", "t0"⟩], [], [], [], []⟩
        [⟨"p1", 2⟩, ⟨"p2", 1⟩] "s1" "ts" "ta" none =
        (db', .ok ⟨"s1", saleTotal ⟨[⟨"p1", "Widget", "S1", "", 10, 5, 100, [], "t0", "t0"⟩,
          ⟨"p2", "Gadget", "S2", "", 20, 8, 50, [], "t0", "t0"⟩], [], [], [], []⟩
          [⟨"p1", 2⟩, ⟨"p2", 1⟩], "ts"⟩) ∧
      (∀ it ∈ [(⟨"p1", 2⟩ : SaleItemRequest), ⟨"p2", 1⟩], ∃ p,
        productGetByID ⟨[⟨"p1", "Widget", "S1", "", 10, 5, 100, [], "t0", "t0"⟩,
          ⟨"p2", "Gadget", "S2", "", 20, 8, 50, [], "t0", "t0"⟩], [], [], [], []⟩
          it.productId = some p ∧
        productGetByID db' it.productId =
          some { p with quantity := p.quantity - it.quantity }) ∧
      db'.saleItems = [] ++ [(⟨"p1", 2⟩ : SaleItemRequest), ⟨"p2", 1⟩].map
        (mkSaleItem ⟨[⟨"p1", "Widget", "S1", "", 10, 5, 100, [], "t0", "t0"⟩,
          ⟨"p2", "Gadget", "S2", "", 20, 8, 50, [], "t0", "t0"⟩], [], [], [], []⟩ "s1") ∧
      db'.sales = [] ++ [⟨"s1", saleTotal ⟨[⟨"p1", "Widget", "S1", "", 10, 5, 100, [], "t0", "t0"⟩,
          ⟨"p2", "Gadget", "S2", "", 20, 8, 50, [], "t0", "t0"⟩], [], [], [], []⟩
          [⟨"p1", 2⟩, ⟨"p2", 1⟩], "ts"⟩] ∧
      (∃ row, db'.auditLogs = [] ++ [row] ∧ row.action = "SALE_PROCESSED")) := by
  constructor
  · norm_num [saleTotal, snapBase, productGetByID, List.find?,
      show ("p1" == "p2") = false from rfl]
  · exact processSale_success
      ⟨[⟨"p1", "Widget", "S1", "", 10, 5, 100, [], "t0", "t0"⟩,
        ⟨"p2", "Gadget", "S2", "", 20, 8, 50, [], "t0", "t0"⟩], [], [], [], []⟩
      [⟨"p1", 2⟩, ⟨"p2", 1⟩] "s1" "ts" "ta"
      (by decide)
      (by
        intro it hit
        rcases List.mem_cons.mp hit with rfl | hit2
        · exact ⟨by decide, ⟨"p1", "Widget", "S1", "", 10, 5, 100, [], "t0", "t0"⟩,
            rfl, by decide⟩
        · rcases List.mem_cons.mp hit2 with rfl | hit3
          · exact ⟨by decide, ⟨"p2", "Gadget", "S2", "", 20, 8, 50, [], "t0", "t0"⟩,
              rfl, by decide⟩
          · cases hit3)
      (by decide)

/-! ## Claim C2 -/

/-- Appending an audit entry leaves the product table unchanged. -/
theorem auditCreate_products (db : DB) (entry : AuditLog) :
    (auditCreate db entry).products = db.products :=
  rfl

/-- A successful run of the import row loop imports one product and
appends one audit entry per row, and the appended entries are chained
from the threaded starting hash. -/
theorem importLoop_ok_characterization (category : Option Category) (categoryID : String)
    (headers : List String) (gen : Nat → String × String × String) :
    ∀ (rows : List (List String)) (lineNum : Nat) (db : DB) (prevHash : String)
      (imported : Nat) (db' : DB) (ph' : String) (imp' : Nat),
      importLoop category categoryID headers gen none rows lineNum db prevHash imported =
        .ok (db', ph', imp') →
      imp' = imported + rows.length ∧
      db'.products.length = db.products.length + rows.length ∧
      ∃ es, db'.auditLogs = db.auditLogs ++ es ∧ es.length = rows.length ∧
        chainedFrom prevHash es := by
  intro rows
  induction rows with
  | nil =>
    intro lineNum db prevHash imported db' ph' imp' h
    unfold importLoop at h
    injection h with h1
    injection h1 with h2 h3
    injection h3 with h4 h5
    subst h2 h5
    exact ⟨by simp, by simp, [], by simp, by simp, trivial⟩
  | cons r rest ih =>
    intro lineNum db prevHash imported db' ph' imp' h
    unfold importLoop at h
    dsimp only at h
    simp only [logAction] at h
    split at h
    · exact Except.noConfusion h
    · split at h
      · exact Except.noConfusion h
      · split at h
        · exact Except.noConfusion h
        · split at h
          · exact Except.noConfusion h
          · split at h
            · exact Except.noConfusion h
            · rename_i db2 heqCreate
              obtain ⟨h1, h2, es, h3, h4, h5⟩ := ih _ _ _ _ _ _ _ h
              have hdb2 : db2.products.length = db.products.length + 1 ∧
                  db2.auditLogs = db.auditLogs := by
                unfold productCreate at heqCreate
                split at heqCreate
                · exact Except.noConfusion heqCreate
                · injection heqCreate with hh
                  subst hh
                  exact ⟨by simp, rfl⟩
              have hlen : (r :: rest).length = rest.length + 1 := rfl
              rw [auditCreate_products] at h2
              refine ⟨by omega, by omega, ?_⟩
              simp only [h3, auditCreate_logs, hdb2.2, List.append_assoc,
                List.singleton_append]
              refine ⟨_, rfl, ?_, ?_, ?_⟩
              · simp [h4]
              · show ((if prevHash = "" then (none : Option String)
                    else some prevHash).getD "") = prevHash
                by_cases hp : prevHash = ""
                · simp [hp]
                · simp [hp]
              · exact h5

/-- Lift of the loop characterization through the header checks, the
zero-row short-circuit and the atomic scope. -/
theorem importRows_ok_characterization (db : DB) (categoryID : String)
    (category : Option Category) (headers : List String)
    (allRows : List (List String)) (gen : Nat → String × String × String)
    (db' : DB) (n : Nat)
    (hok : importRows db categoryID category headers allRows gen none = (db', .ok n)) :
    n = allRows.length ∧ db'.products.length = db.products.length + n ∧
    ∃ es, db'.auditLogs = db.auditLogs ++ es ∧ es.length = n ∧
      chainedFrom (lastChainHash db) es := by
  unfold importRows at hok
  split at hok
  · exact absurd (congrArg Prod.snd hok) (by simp)
  · split at hok
    · exact absurd (congrArg Prod.snd hok) (by simp)
    · split at hok
      · exact absurd (congrArg Prod.snd hok) (by simp)
      · split at hok
        · rename_i hemp
          injection hok with ha hb
          injection hb with hc
          subst ha
          have : allRows = [] := by
            cases allRows with
            | nil => rfl
            | cons x xs => simp at hemp
          subst this
          subst hc
          exact ⟨rfl, by simp, [], by simp, rfl, trivial⟩
        · unfold withTx at hok
          dsimp only at hok
          cases hw : importLoop category categoryID headers gen none allRows 0 db
              (seedPrevHash (.ok (getLastLog db))) 0 with
          | error e =>
            rw [hw] at hok
            exact absurd (congrArg Prod.snd hok) (by simp)
          | ok t =>
            obtain ⟨db2, ph, imp⟩ := t
            rw [hw] at hok
            dsimp only at hok
            injection hok with ha hb
            injection hb with hc
            subst ha
            subst hc
            obtain ⟨h1, h2, es, h3, h4, h5⟩ :=
              importLoop_ok_characterization category categoryID headers gen
                allRows 0 db (seedPrevHash (.ok (getLastLog db))) 0 db2 ph imp hw
            rw [seedPrevHash_lastChainHash] at h5
            exact ⟨by omega, by omega, es, h3, by omega, h5⟩

/-- C2: for every successful import returning count `n` over data rows
`allRows`, exactly `n = |allRows|` products are created and exactly `n`
audit entries are appended, and those entries are correctly hash-chained:
the first appended entry's `prevHash` equals the last pre-existing
entry's `currentHash` (the empty string if the log was empty), and each
subsequent entry's `prevHash` equals its predecessor's `currentHash`,
because the hash is threaded through a local variable. -/
theorem importProducts_chained (db : DB) (categoryID : String)
    (headers : List String) (allRows : List (List String))
    (gen : Nat → String × String × String) (db' : DB) (n : Nat)
    (hok : importProducts db categoryID (headers :: allRows) gen none = (db', .ok n)) :
    n = allRows.length ∧ db'.products.length = db.products.length + n ∧
    ∃ es, db'.auditLogs = db.auditLogs ++ es ∧ es.length = n ∧
      chainedFrom (lastChainHash db) es := by
  unfold importProducts at hok
  by_cases hcat : categoryID = ""
  · simp only [hcat, if_pos rfl] at hok
    exact importRows_ok_characterization db "" none headers allRows gen db' n hok
  · simp only [if_neg hcat] at hok
    cases hfc : findCategory db categoryID with
    | none =>
      rw [hfc] at hok
      exact absurd (congrArg Prod.snd hok) (by simp)
    | some c =>
      rw [hfc] at hok
      exact importRows_ok_characterization db categoryID (some c) headers allRows gen
        db' n hok


/-- Witness: C2 applied to a concrete two-row import into an empty
store. -/
theorem importProducts_chained_witness :
    2 = [["A", "S1", "1.5"], ["B", "S2", "2"]].length ∧
    (importProducts ⟨[], [], [], [], []⟩ ""
        [["name", "sku", "base_price"], ["A", "S1", "1.5"], ["B", "S2", "2"]]
        (fun k => (toString k, "pt", "at")) none).1.products.length =
      (⟨[], [], [], [], []⟩ : DB).products.length + 2 ∧
    ∃ es, (importProducts ⟨[], [], [], [], []⟩ ""
        [["name", "sku", "base_price"], ["A", "S1", "1.5"], ["B", "S2", "2"]]
        (fun k => (toString k, "pt", "at")) none).1.auditLogs =
        (⟨[], [], [], [], []⟩ : DB).auditLogs ++ es ∧ es.length = 2 ∧
      chainedFrom (lastChainHash ⟨[], [], [], [], []⟩) es :=
  importProducts_chained ⟨[], [], [], [], []⟩ "" ["name", "sku", "base_price"]
    [["A", "S1", "1.5"], ["B", "S2", "2"]] (fun k => (toString k, "pt", "at"))
    (importProducts ⟨[], [], [], [], []⟩ ""
      [["name", "sku", "base_price"], ["A", "S1", "1.5"], ["B", "S2", "2"]]
      (fun k => (toString k, "pt", "at")) none).1 2 rfl

/-! ## Claim C9 -/

/-- Filtering the property clauses is unaffected by first erasing a key
the clause filter rejects. -/
theorem filter_erasePropKey (props : List (String × String)) (k : String)
    (test : String → Bool) (hk : test k = false) :
    (erasePropKey props k).filter (fun kv => test kv.1) =
      props.filter (fun kv => test kv.1) := by
  induction props with
  | nil => rfl
  | cons kv rest ih =>
    simp only [erasePropKey, List.filter_cons] at ih ⊢
    by_cases hkk : kv.1 = k
    · have h1 : (!(kv.1 == k)) = false := by simp [hkk]
      have h2 : test kv.1 = false := by rw [hkk]; exact hk
      simp only [h1, Bool.false_eq_true, if_false, h2]
      exact ih
    · have h1 : (!(kv.1 == k)) = true := by simp [hkk]
      simp only [h1, if_true, List.filter_cons]
      by_cases ht : test kv.1 = true
      · simp only [ht, if_true]
        rw [ih]
      · simp only [Bool.not_eq_true] at ht
        simp only [ht, Bool.false_eq_true, if_false]
        exact ih

/-- The repository search result is unchanged when a property filter key
rejected by the safelist-and-shape check is removed from the request. -/
theorem searchRepo_erase (ftsMatch : String → Product → Bool) (db : DB)
    (opts : FilterOptions) (allowedKeys : List String) (k : String)
    (hk : propFilterKept allowedKeys k = false) :
    searchRepo ftsMatch db { opts with properties := erasePropKey opts.properties k }
        allowedKeys =
      searchRepo ftsMatch db opts allowedKeys := by
  unfold searchRepo
  have hpred : ∀ p ∈ db.products,
      searchPred ftsMatch { opts with properties := erasePropKey opts.properties k }
        allowedKeys p = searchPred ftsMatch opts allowedKeys p := by
    intro p _
    unfold searchPred
    dsimp only
    rw [filter_erasePropKey opts.properties k (propFilterKept allowedKeys) hk]
  rw [List.filter_congr hpred]

/-- C9: any property filter key that is not in the allow-list resolved
from the category's attribute definitions (empty when no category id is
given), or that does not match the safe-identifier shape, is silently
dropped: the search returns exactly the same result — including the
absence of any error — as the identical request without that key. -/
theorem searchProducts_drops_key (ftsMatch : String → Product → Bool) (db : DB)
    (opts : FilterOptions) (k : String)
    (hdrop : validPropertyKey k = false ∨ opts.categoryId = "" ∨
      ∀ c, findCategory db opts.categoryId = some c →
        (c.attributeDefinitions.map (·.key)).contains k = false) :
    searchProducts ftsMatch db { opts with properties := erasePropKey opts.properties k } =
      searchProducts ftsMatch db opts := by
  unfold searchProducts
  dsimp only
  by_cases hcat : opts.categoryId = ""
  · rw [if_pos hcat, if_pos hcat]
    rw [searchRepo_erase ftsMatch db opts [] k rfl]
  · rw [if_neg hcat, if_neg hcat]
    cases hfc : findCategory db opts.categoryId with
    | none => rfl
    | some c =>
      dsimp only
      have hkept : propFilterKept (c.attributeDefinitions.map (·.key)) k = false := by
        rcases hdrop with hv | hc | hall
        · unfold propFilterKept
          rw [hv, Bool.and_false]
        · exact absurd hc hcat
        · unfold propFilterKept
          rw [hall c hfc, Bool.false_and]
      rw [searchRepo_erase ftsMatch db opts (c.attributeDefinitions.map (·.key)) k hkept]

/-- Witness: C9 applied with a shape-invalid filter key on a concrete
store. -/
theorem searchProducts_drops_key_witness :
    validPropertyKey "1bad" = false ∧
    searchProducts (fun _ _ => true)
        ⟨[⟨"p1", "Widget", "S1", "", 10, 5, 3, [("color", .str "red")], "t0", "t0"⟩],
          [], [], [], []⟩
        { query := "", categoryId := "", minPrice := none, maxPrice := none,
          properties := erasePropKey [("1bad", "x"), ("color", "red")] "1bad",
          limit := 10, offset := 0 } =
      searchProducts (fun _ _ => true)
        ⟨[⟨"p1", "Widget", "S1", "", 10, 5, 3, [("color", .str "red")], "t0", "t0"⟩],
          [], [], [], []⟩
        { query := "", categoryId := "", minPrice := none, maxPrice := none,
          properties := [("1bad", "x"), ("color", "red")], limit := 10, offset := 0 } :=
  ⟨by decide,
   searchProducts_drops_key (fun _ _ => true)
     ⟨[⟨"p1", "Widget", "S1", "", 10, 5, 3, [("color", .str "red")], "t0", "t0"⟩],
       [], [], [], []⟩
     { query := "", categoryId := "", minPrice := none, maxPrice := none,
       properties := [("1bad", "x"), ("color", "red")], limit := 10, offset := 0 }
     "1bad" (Or.inl (by decide))⟩
